import Mathlib

/-!
Verification development for the agent_juliette lead-to-quote pipeline.

Shallow embedding of the repository's core components:
* `src/models.py`            — quote data model and derived totals
* `src/agent/devis_schemas.py` — LLM line validation and JSON extraction
* `src/agent/devis_generator.py` — contextual fallback and budget bucketing
* `src/agent/email_generator.py` — email generation with fallback
* `src/agent/orchestrator.py` — pipeline sequencing and failure policy
* `main.py`                  — webhook endpoint and idempotency cache

Machine integers/floats are modelled as `Int`/`Rat` (exact arithmetic);
Python exceptions are modelled by `Except`.
-/

namespace Juliette

/-! ## Python-style string helpers

Helpers mirroring the Python string operations used by the source
(`str.lower`, `str.strip`, substring containment, `str.title`,
`str.replace`).  All operate on `List Char`; `String` values are
converted via `String.data`. -/

/-- `c` is neither `'{'` nor `'}'` (used by the JSON extraction model). -/
def isNB (c : Char) : Bool := !(c == '{' || c == '}')

/-- Python `str.lower()` restricted to the ASCII range (all inputs the
source matches against are ASCII apart from `'€'`, which `lower` leaves
unchanged in both semantics). -/
def pyLower (s : List Char) : List Char := s.map Char.toLower

/-- Python `in` on strings: `needle in hay` (substring containment). -/
def listContainsSub (needle hay : List Char) : Bool :=
  (hay.tails).any (fun t => needle.isPrefixOf t)

/-- Python `needle in hay` for `String`s. -/
def pyContains (hay needle : String) : Bool :=
  listContainsSub needle.data hay.data

/-- Python `str.strip()` (whitespace at both ends). -/
def pyStrip (s : List Char) : List Char :=
  ((s.dropWhile Char.isWhitespace).reverse.dropWhile Char.isWhitespace).reverse

/-- Python `str.title()` for ASCII words: first letter of each
letter-run uppercased, the rest lowercased. -/
def pyTitleAux : Bool → List Char → List Char
  | _, [] => []
  | prevAlpha, c :: rest =>
    if c.isAlpha then
      (if prevAlpha then c.toLower else c.toUpper) :: pyTitleAux true rest
    else
      c :: pyTitleAux false rest

/-- Python `str.title()`. -/
def pyTitle (s : String) : String := ⟨pyTitleAux false s.data⟩

/-- Python `str.replace(a, b)` for single characters. -/
def pyReplaceChar (a b : Char) (s : String) : String :=
  ⟨s.data.map (fun c => if c == a then b else c)⟩

/-- Python truthiness of an optional string (`None` and `""` are falsy). -/
def pyTruthy : Option String → Bool
  | none => false
  | some s => !(s = "")

/-- Python `str.replace(pat, rep)` on char lists, fuelled (structural
on the fuel; the fuel is the input length, which always suffices
because each step consumes at least one character): all
non-overlapping occurrences replaced left to right (every pattern the
source uses is non-empty). -/
def replaceLF (pat rep : List Char) : Nat → List Char → List Char
  | _, [] => []
  | 0, l => l
  | fuel + 1, c :: rest =>
    if pat ≠ [] ∧ pat.isPrefixOf (c :: rest) then
      rep ++ replaceLF pat rep fuel ((c :: rest).drop pat.length)
    else
      c :: replaceLF pat rep fuel rest

/-- Python `str.replace` on char lists. -/
def replaceL (pat rep l : List Char) : List Char :=
  replaceLF pat rep l.length l

/-- Python `str.replace` on `String`s. -/
def pyReplaceStr (s pat rep : String) : String :=
  ⟨replaceL pat.data rep.data s.data⟩

/-- Python `str.split(sep)` for a non-empty separator, on char lists,
fuelled like `replaceLF`. -/
def splitLF (sep : List Char) : Nat → List Char → List (List Char)
  | _, [] => [[]]
  | 0, l => [l]
  | fuel + 1, c :: rest =>
    if sep ≠ [] ∧ sep.isPrefixOf (c :: rest) then
      [] :: splitLF sep fuel ((c :: rest).drop sep.length)
    else
      match splitLF sep fuel rest with
      | [] => [[c]]
      | h2 :: t => (c :: h2) :: t

/-- Python `str.split(sep)` on char lists. -/
def splitL (sep l : List Char) : List (List Char) :=
  splitLF sep l.length l

/-- Python `str.split(sep)` on `String`s. -/
def pySplitOn (sep s : String) : List String :=
  (splitL sep.data s.data).map (fun l => ⟨l⟩)

/-- Python `str.startswith(pre)`. -/
def pyStartsWith (s pre : String) : Bool :=
  pre.data.isPrefixOf s.data

/-! ## Quote data model (`src/models.py`) -/

/-- `DevisItem` (`src/models.py`): one quote line.  `unit_price` is a
Python float, modelled as `Rat`. -/
structure DevisItem where
  description : String
  quantity : Int := 1
  unit_price : Rat
  deriving Repr, DecidableEq

/-- `DevisItem.total` property: `quantity * unit_price`. -/
def DevisItem.total (it : DevisItem) : Rat := it.quantity * it.unit_price

/-- `DevisContent` (`src/models.py`): a structured quote.  `created_at`
and `valid_until` are opaque to every claim and modelled as `Int`
timestamps. -/
structure DevisContent where
  reference : String
  created_at : Int := 0
  valid_until : Int := 0
  client_name : String
  client_email : String
  client_company : Option String := none
  title : String
  introduction : String
  items : List DevisItem := []
  conditions : String
  deriving Repr, DecidableEq

/-- `DevisContent.subtotal` property: `sum(item.total for item in items)`. -/
def DevisContent.subtotal (d : DevisContent) : Rat :=
  (d.items.map DevisItem.total).sum

/-- `DevisContent.tva` property: `subtotal * 0.20` (20% VAT). -/
def DevisContent.tva (d : DevisContent) : Rat :=
  d.subtotal * (20 / 100)

/-- `DevisContent.total_ttc` property: `subtotal + tva`.  The source
applies no rounding here. -/
def DevisContent.total_ttc (d : DevisContent) : Rat :=
  d.subtotal + d.tva

/-- Round to the nearest integer, ties to even (Python 3 / IEEE
semantics, idealised over exact rationals). -/
def bankersRound (y : Rat) : Int :=
  if y - ⌊y⌋ < 1 / 2 then ⌊y⌋
  else if 1 / 2 < y - ⌊y⌋ then ⌊y⌋ + 1
  else if ⌊y⌋ % 2 = 0 then ⌊y⌋ else ⌊y⌋ + 1

/-- Python 3 `round(x, 2)`: round to 2 decimals, ties to even
(idealised over exact rationals).  Used only to state the spec's
rounding claim. -/
def pyRound2 (x : Rat) : Rat :=
  (bankersRound (100 * x) : Rat) / 100

/-! ## Lead model (`src/models.py`) -/

/-- `ServiceType` enum (`src/models.py`). -/
inductive ServiceType where
  | mass_mailing
  | automation_ia
  | seo_growth
  deriving Repr, DecidableEq

/-- `ServiceType.value` (the enum's string value). -/
def ServiceType.value : ServiceType → String
  | .mass_mailing => "mass_mailing"
  | .automation_ia => "automation_ia"
  | .seo_growth => "seo_growth"

/-- `LeadRequest` (`src/models.py`): a normalized form submission.
`received_at` is opaque to every claim and modelled as `Int`. -/
structure LeadRequest where
  first_name : String
  last_name : String
  email : String
  company : Option String := none
  website : Option String := none
  service_type : ServiceType
  project_description : String
  budget_range : Option String := none
  tally_response_id : String
  source : String := "tally"
  received_at : Int := 0
  consent : Bool := false
  deriving Repr, DecidableEq

/-- `LeadRequest.full_name` property. -/
def LeadRequest.full_name (l : LeadRequest) : String :=
  l.first_name ++ " " ++ l.last_name

/-- Python slice `s[:n]`. -/
def pyTake (n : Nat) (s : String) : String := ⟨s.data.take n⟩

/-! ## Budget bucketing and contextual fallback
(`src/agent/devis_generator.py`) -/

/-- `DevisGenerator._estimate_price_from_budget`: fixed bucketing of the
lead's free-text budget hint, translated clause by clause from the
source. -/
def estimate_price_from_budget (budget_range : Option String) : Rat :=
  match budget_range with
  | none => 1500
  | some br =>
    if br = "" then 1500
    else
      let b : String := ⟨pyLower br.data⟩
      if pyContains b "< 1" || pyContains b "<1" || pyContains b "moins de 1" then
        800
      else if pyContains b "1" && pyContains b "3" then
        2000
      else if pyContains b "3" && pyContains b "5" then
        4000
      else if pyContains b "5" && pyContains b "10" then
        7500
      else if pyContains b "10" || pyContains b "+" || pyContains b ">" then
        12000
      else
        1500

/-- One entry of `lignes_devis` in the payload dict produced by
`DevisGenerator._parse_response` (validated model dump or fallback). -/
structure LigneDict where
  description : String
  details : Option String := none
  quantite : Int := 1
  prix_unitaire : Rat
  deriving Repr, DecidableEq

/-- The payload dict produced by `DevisGenerator._parse_response`. -/
structure PayloadDict where
  titre : String
  introduction : String
  lignes_devis : List LigneDict
  conditions : String
  message_personnel : Option String := none
  deriving Repr, DecidableEq

/-- The human-readable service name used by the fallback:
`lead.service_type.value.replace("_", " ").title()`. -/
def serviceNameOf (lead : LeadRequest) : String :=
  pyTitle (pyReplaceChar '_' ' ' lead.service_type.value)

/-- The contextual fallback payload built in step 3 of
`DevisGenerator._parse_response` (lines 170-185 of
`src/agent/devis_generator.py`), translated field by field. -/
def fallbackPayload (lead : LeadRequest) : PayloadDict :=
  let service_name : String := serviceNameOf lead
  { titre := "Devis " ++ service_name ++ " - " ++
      (match lead.company with
       | some c => if c = "" then lead.full_name else c
       | none => lead.full_name),
    introduction := "Cher(e) " ++ lead.first_name ++
      ", suite à votre demande concernant " ++
      pyTake 100 lead.project_description ++
      "..., voici notre proposition personnalisée.",
    lignes_devis := [
      { description := "Prestation " ++ service_name,
        details := some ("Selon votre besoin: " ++
          pyTake 150 lead.project_description),
        quantite := 1,
        prix_unitaire := estimate_price_from_budget lead.budget_range }],
    conditions :=
      "Devis valable 30 jours. Paiement 50% à la commande, 50% à la livraison.",
    message_personnel := some
      ("N\x27hésitez pas à me contacter pour affiner cette proposition, " ++
        lead.first_name ++ ".") }

/-- `DevisGenerator._parse_response`, with the outcomes of the direct
parse (step 1) and the extraction parse (step 2) as parameters: the
first success wins, and when both fail the contextual fallback is
returned. -/
def parse_response (direct extractedParse : Option PayloadDict)
    (lead : LeadRequest) : PayloadDict :=
  match direct with
  | some p => p
  | none =>
    match extractedParse with
    | some p => p
    | none => fallbackPayload lead

/-- The budget bucketing table exactly as the spec's claim words it
(first bucket matching only `"<1"` / `"< 1"`), used to compare the
claimed table against the source's `_estimate_price_from_budget`. -/
def claimedBucket (budget_range : Option String) : Rat :=
  match budget_range with
  | none => 1500
  | some br =>
    let b : String := ⟨pyLower br.data⟩
    if pyContains b "<1" || pyContains b "< 1" then 800
    else if pyContains b "1" && pyContains b "3" then 2000
    else if pyContains b "3" && pyContains b "5" then 4000
    else if pyContains b "5" && pyContains b "10" then 7500
    else if pyContains b "10" || pyContains b "+" || pyContains b ">" then 12000
    else 1500

/-! ## LLM quote-line validation (`src/agent/devis_schemas.py`) -/

/-- A primitive JSON value as it may appear in a field of an LLM
payload (string / int / float / null). -/
inductive JPrim where
  | jstr (s : String)
  | jint (n : Int)
  | jfloat (q : Rat)
  | jnull
  deriving Repr, DecidableEq

/-- Value of a non-empty digit string. -/
def digitsVal (l : List Char) : Nat :=
  l.foldl (fun a c => a * 10 + (c.toNat - 48)) 0

/-- Python `float(s)` for a string containing only digits and dots
(the shape produced by the cleaning step): accepted iff there is at
most one dot and at least one digit. -/
def pyParseFloat (l : List Char) : Option Rat :=
  if l.all (fun c => c.isDigit || c == '.') then
    match l.splitOn '.' with
    | [a] => if a = [] then none else some (digitsVal a)
    | [a, b] =>
      if a = [] && b = [] then none
      else some ((digitsVal a : Rat) + (digitsVal b : Rat) / ((10 : Rat) ^ b.length))
    | _ => none
  else none

/-- Python `int(x)` truncation toward zero for a float argument. -/
def pyIntTrunc (q : Rat) : Int :=
  if 0 ≤ q then ⌊q⌋ else -⌊-q⌋

/-- `LLMDevisLine.coerce_prix_to_float` (`src/agent/devis_schemas.py`):
mode-`before` validator for `prix_unitaire`.  Strings are cleaned to
digits/dots/commas, commas become dots, an empty cleaning gives `0.0`,
and a non-empty cleaning that `float()` rejects raises (`.error`). -/
def coerce_prix_to_float : JPrim → Except String Rat
  | .jstr s =>
    let cleaned : List Char :=
      (s.data.filter (fun c => c.isDigit || c == '.' || c == ',')).map
        (fun c => if c == ',' then '.' else c)
    if cleaned = [] then .ok 0
    else
      match pyParseFloat cleaned with
      | some q => .ok q
      | none => .error "could not convert string to float"
  | .jint n => .ok (n : Rat)
  | .jfloat q => .ok q
  | .jnull => .ok 0

/-- `LLMDevisLine.coerce_quantite_to_int` (`src/agent/devis_schemas.py`):
mode-`before` validator for `quantite`.  Strings are stripped to their
digits (empty stripping gives `1`), floats are truncated by `int()`,
`None` gives `1`. -/
def coerce_quantite_to_int : JPrim → Except String Int
  | .jstr s =>
    let cleaned : List Char := s.data.filter Char.isDigit
    if cleaned = [] then .ok 1 else .ok (digitsVal cleaned : Int)
  | .jint n => .ok n
  | .jfloat q => .ok (pyIntTrunc q)
  | .jnull => .ok 1

/-- Validated `LLMDevisLine` (`src/agent/devis_schemas.py`). -/
structure LLMDevisLine where
  description : String
  details : Option String := none
  quantite : Int := 1
  prix_unitaire : Rat
  deriving Repr, DecidableEq

/-- Raw field inputs for one quote line as received from the LLM
(`none` = field absent from the JSON object). -/
structure LineInput where
  description : Option JPrim := none
  details : Option JPrim := none
  quantite : Option JPrim := none
  prix_unitaire : Option JPrim := none
  deriving Repr, DecidableEq

/-- Validation of the `description` field: required, non-empty
string. -/
def validateDescriptionField : Option JPrim → Except String String
  | none => .error "description: Field required"
  | some (.jstr s) =>
    if 1 ≤ s.length then .ok s
    else .error "description: String should have at least 1 character"
  | some _ => .error "description: Input should be a valid string"

/-- Validation of the optional `details` field. -/
def validateDetailsField : Option JPrim → Except String (Option String)
  | none => .ok none
  | some .jnull => .ok none
  | some (.jstr s) => .ok (some s)
  | some _ => .error "details: Input should be a valid string"

/-- Validation of `quantite`: absent fields take the default `1`
(pydantic does not validate defaults); present values run the
`before` coercion and then the `ge=1` bound. -/
def validateQuantiteField : Option JPrim → Except String Int
  | none => .ok 1
  | some v => do
    let n ← coerce_quantite_to_int v
    if 1 ≤ n then pure n
    else Except.error "quantite: Input should be greater than or equal to 1"

/-- Validation of `prix_unitaire`: the field has no default, so a
missing field is a validation error; present values run the `before`
coercion and then the `ge=0` bound. -/
def validatePrixField : Option JPrim → Except String Rat
  | none => .error "prix_unitaire: Field required"
  | some v => do
    let q ← coerce_prix_to_float v
    if 0 ≤ q then pure q
    else Except.error "prix_unitaire: Input should be greater than or equal to 0"

/-- Pydantic validation of `LLMDevisLine`
(`src/agent/devis_schemas.py`): the four field validations combined
(the embedding reports the first failing field rather than pydantic's
collected error list; success/failure agree). -/
def validateLLMDevisLine (inp : LineInput) : Except String LLMDevisLine := do
  let description ← validateDescriptionField inp.description
  let details ← validateDetailsField inp.details
  let quantite ← validateQuantiteField inp.quantite
  let prix ← validatePrixField inp.prix_unitaire
  pure { description := description, details := details,
         quantite := quantite, prix_unitaire := prix }

/-! ## JSON extraction (`src/agent/devis_schemas.py`)

`JSON_OBJECT_PATTERN` matches `\x7b[^\x7b\x7d]*(?:\x7b[^\x7b\x7d]*\x7d[^\x7b\x7d]*)*\x7d`:
a brace-delimited block with at most one level of brace nesting.
`extract_json_from_text` runs `findall` (leftmost non-overlapping
matches, each maximal at its start) and returns the longest match,
Python's `max` keeping the first of several equally long ones. -/

/-- Number of characters (inclusive of the closing `'}'`) consumed by
the regex engine from just after an opening `'{'` until the matching
top-level close.  `deep = true` while inside a nested block, where a
further `'{'` aborts the match. -/
def closeLen (deep : Bool) : List Char → Option Nat
  | [] => none
  | c :: rest =>
    if c == '}' then
      if deep then (closeLen false rest).map (· + 1) else some 1
    else if c == '{' then
      if deep then none else (closeLen true rest).map (· + 1)
    else
      (closeLen deep rest).map (· + 1)

/-- `re.findall(JSON_OBJECT_PATTERN, text)`: leftmost non-overlapping
matches, scanning resumes after each match.  Fuelled (structural on
the fuel): each step consumes at least one character, so fuel equal
to the input length always suffices. -/
def findallLF : Nat → List Char → List (List Char)
  | _, [] => []
  | 0, _ => []
  | fuel + 1, c :: rest =>
    if c == '{' then
      match closeLen false rest with
      | some n => ('{' :: rest.take n) :: findallLF fuel (rest.drop n)
      | none => findallLF fuel rest
    else
      findallLF fuel rest

/-- `re.findall(JSON_OBJECT_PATTERN, text)`. -/
def findallL (l : List Char) : List (List Char) := findallLF l.length l

/-- Python `max(matches, key=len)`: the first element of maximal
length (`max` keeps the current candidate on ties). -/
def pyMaxByLen : List (List Char) → Option (List Char)
  | [] => none
  | x :: xs => some (xs.foldl (fun acc y => if acc.length < y.length then y else acc) x)

/-- `extract_json_from_text` (`src/agent/devis_schemas.py`): longest
regex match, `none` when there is no match. -/
def extract_json_from_text (text : List Char) : Option (List Char) :=
  pyMaxByLen (findallL text)

/-- The inner language of the claim's "balanced brace-delimited
substring with up to one level of nesting": a mix of non-brace
characters and fully non-brace nested blocks. -/
inductive Ok1 : List Char → Prop
  | nil : Ok1 []
  | chr {c : Char} {w : List Char} : isNB c = true → Ok1 w → Ok1 (c :: w)
  | blk {u w : List Char} : (∀ c ∈ u, isNB c = true) → Ok1 w →
      Ok1 ('{' :: u ++ '}' :: w)

/-- A balanced brace-delimited JSON-like substring with up to one
level of brace nesting, as the spec words it. -/
def InL (s : List Char) : Prop := ∃ w, Ok1 w ∧ s = '{' :: w ++ ['}']

/-- A candidate in the sense of the claim: a brace-delimited
one-nesting substring occurring in the text. -/
def Candidate (text s : List Char) : Prop := InL s ∧ s <:+: text

/-- All characters of `u` are non-brace. -/
def NBl (u : List Char) : Prop := ∀ c ∈ u, isNB c = true

/-! ## Email generation (`src/agent/email_generator.py`) -/

/-- `GeneratedEmail` dataclass (`src/agent/email_generator.py`). -/
structure GeneratedEmail where
  subject : String
  body_html : String
  body_text : String
  deriving Repr, DecidableEq

/-- Python `str.upper()` (ASCII range, all uses here are ASCII markers). -/
def pyUpperStr (s : String) : String := ⟨s.data.map Char.toUpper⟩

/-- Python `str.strip()` on `String`. -/
def pyStripStr (s : String) : String := ⟨pyStrip s.data⟩

/-- Python `str.strip(chars)`: remove the given characters from both
ends. -/
def pyStripChars (cs : List Char) (s : String) : String :=
  ⟨((s.data.dropWhile (cs.contains ·)).reverse.dropWhile (cs.contains ·)).reverse⟩

/-- Split a char list into chunks of three (used for the thousands
grouping of Python's `","` format flag). -/
def chunk3 : List Char → List (List Char)
  | [] => []
  | c :: rest => (c :: rest.take 2) :: chunk3 (rest.drop 2)
termination_by l => l.length
decreasing_by
  have h : (List.drop 2 rest).length ≤ rest.length := by
    rw [List.length_drop]; exact Nat.sub_le ..
  simpa using Nat.lt_succ_of_le h

/-- Python `f"{x:,.2f}"`: two decimals (ties to even) and thousands
separated by commas. -/
def pyFormatComma2 (q : Rat) : String :=
  let n : Int := bankersRound (q * 100)
  let sign : String := if n < 0 then "-" else ""
  let m : Nat := n.natAbs
  let ip : Nat := m / 100
  let fp : Nat := m % 100
  let parts : List (List Char) :=
    ((chunk3 (Nat.repr ip).data.reverse).map List.reverse).reverse
  let ipStr : String := String.intercalate "," (parts.map (⟨·⟩))
  let fpStr : String := (if fp < 10 then "0" else "") ++ Nat.repr fp
  sign ++ ipStr ++ "." ++ fpStr

/-- Fixed chunks of the HTML template in `_convert_to_html`
(`src/agent/email_generator.py`, lines 210-288), split at the f-string
interpolation sites. -/
def htmlChunk1 : String := "<!DOCTYPE html>
<html lang=\"fr\">
<head>
    <meta charset=\"UTF-8\">
    <meta name=\"viewport\" content=\"width=device-width, initial-scale=1.0\">
    <title>Devis "

def htmlChunk2 : String := "</title>
</head>
<body style=\"margin: 0; padding: 0; font-family: \x27Segoe UI\x27, Tahoma, Geneva, Verdana, sans-serif; background-color: #f4f4f9; color: #1a1a2e;\">
    <table role=\"presentation\" width=\"100%\" cellspacing=\"0\" cellpadding=\"0\" style=\"max-width: 650px; margin: 0 auto; background-color: #ffffff;\">
        <!-- Header avec gradient -->
        <tr>
            <td style=\"background: linear-gradient(135deg, #667eea 0%, #764ba2 100%); padding: 30px 40px; text-align: center;\">
                <h1 style=\"color: #ffffff; margin: 0; font-size: 26px; font-weight: 600; letter-spacing: -0.5px;\">
                    nana-intelligence
                </h1>
                <p style=\"color: rgba(255,255,255,0.85); margin: 8px 0 0; font-size: 14px;\">
                    Automatisation & IA pour votre croissance
                </p>
            </td>
        </tr>

        <!-- Corps de l\x27email -->
        <tr>
            <td style=\"padding: 40px;\">
                <div style=\"line-height: 1.7; font-size: 15px; color: #2d2d44;\">
                    "

def htmlChunk3 : String := "
                </div>

                <!-- Bloc récapitulatif -->
                <table role=\"presentation\" width=\"100%\" style=\"margin: 30px 0; background: linear-gradient(135deg, #f8f9ff 0%, #f0f1f8 100%); border-radius: 12px; border-left: 4px solid #667eea;\">
                    <tr>
                        <td style=\"padding: 25px;\">
                            <p style=\"margin: 0 0 8px; color: #667eea; font-weight: 600; font-size: 12px; text-transform: uppercase; letter-spacing: 1px;\">
                                📄 Votre devis
                            </p>
                            <p style=\"margin: 0 0 5px; font-size: 16px; font-weight: 600; color: #1a1a2e;\">
                                "

def htmlChunk4 : String := "
                            </p>
                            <p style=\"margin: 0; color: #666; font-size: 13px;\">
                                Réf. "

def htmlChunk5 : String := "
                            </p>
                            <hr style=\"border: none; border-top: 1px solid #e0e0e0; margin: 15px 0;\">
                            <p style=\"margin: 0; font-size: 28px; font-weight: 700; color: #667eea;\">
                                "

def htmlChunk6 : String := " € <span style=\"font-size: 14px; font-weight: 400; color: #666;\">TTC</span>
                            </p>
                        </td>
                    </tr>
                </table>

                <!-- CTA -->
                <table role=\"presentation\" width=\"100%\" style=\"margin: 25px 0;\">
                    <tr>
                        <td style=\"text-align: center;\">
                            <p style=\"color: #666; font-size: 14px; margin: 0 0 15px;\">
                                Prêt à démarrer ? Répondez à cet email ou planifions un appel.
                            </p>
                        </td>
                    </tr>
                </table>
            </td>
        </tr>

        <!-- Footer -->
        <tr>
            <td style=\"background-color: #f8f9fa; padding: 25px 40px; text-align: center; border-top: 1px solid #e9ecef;\">
                <p style=\"margin: 0 0 5px; font-size: 14px; font-weight: 600; color: #1a1a2e;\">
                    Juliette • nana-intelligence
                </p>
                <p style=\"margin: 0; font-size: 13px; color: #6b7280;\">
                    contact@nana-intelligence.fr • nana-intelligence.fr
                </p>
                <p style=\"margin: 15px 0 0; font-size: 11px; color: #9ca3af;\">
                    Cet email et son contenu sont confidentiels. Le devis joint est valable 30 jours.
                </p>
            </td>
        </tr>
    </table>
</body>
</html>"

/-- `_convert_to_html` (`src/agent/email_generator.py`): blank-line
separated paragraphs become `<p>` blocks (single newlines become
`<br>`), assembled into the fixed HTML template.  The `lead` argument
is unused by the source as well. -/
def convert_to_html (text : String) (_lead : LeadRequest)
    (devis : DevisContent) : String :=
  let paragraphs : List String := pySplitOn "\n\n" text
  let html_paragraphs : List String := paragraphs.filterMap (fun p =>
    let p : String := pyStripStr p
    if p = "" then none
    else some ("<p>" ++ pyReplaceStr p "\n" "<br>" ++ "</p>"))
  let body_content : String := String.intercalate "\n" html_paragraphs
  htmlChunk1 ++ devis.reference ++ htmlChunk2 ++ body_content ++
    htmlChunk3 ++ devis.title ++ htmlChunk4 ++ devis.reference ++
    htmlChunk5 ++ pyFormatComma2 devis.total_ttc ++ htmlChunk6

/-- The line loop of `_parse_email_response`: accumulates the subject
(last `SUJET:`-marked line wins), tracks whether a `---` delimiter has
been seen, and collects body lines after it. -/
def parseEmailLoop (subject : String) (bodyRev : List String)
    (in_body : Bool) : List String → String × List String
  | [] => (subject, bodyRev.reverse)
  | line :: rest =>
    if pyStartsWith (pyUpperStr line) "SUJET:" then
      let s : String :=
        pyStripStr (pyReplaceStr (pyReplaceStr line "SUJET:" "") "sujet:" "")
      parseEmailLoop (pyStripChars ['"', '\x27'] s) bodyRev in_body rest
    else if pyStripStr line = "---" then
      parseEmailLoop subject bodyRev true rest
    else if in_body then
      parseEmailLoop subject (line :: bodyRev) in_body rest
    else
      parseEmailLoop subject bodyRev in_body rest

/-- `_parse_email_response` (`src/agent/email_generator.py`): extract
the subject from a `SUJET:` line (case variants per the source's exact
replacements), take the body after a `---` line, fall back to the
whole response when no body was collected, and render the HTML. -/
def parse_email_response (response : String) (lead : LeadRequest)
    (devis : DevisContent) : GeneratedEmail :=
  let lines : List String := pySplitOn "\n" (pyStripStr response)
  let fallbackSubject : String :=
    "Votre devis " ++ devis.reference ++ " - nana-intelligence"
  let (subject, body_lines) := parseEmailLoop fallbackSubject [] false lines
  let body_text : String := pyStripStr (String.intercalate "\n" body_lines)
  let body_text : String :=
    if body_text = "" then pyStripStr response else body_text
  { subject := subject,
    body_html := convert_to_html body_text lead devis,
    body_text := body_text }

/-- `EmailGenerator._generate_fallback_email`
(`src/agent/email_generator.py`): deterministic fallback email built
from lead and quote fields only. -/
def generate_fallback_email (lead : LeadRequest) (devis : DevisContent) :
    GeneratedEmail :=
  let subject : String :=
    lead.first_name ++ ", votre proposition commerciale " ++ devis.reference
  let body_text : String :=
    "Bonjour " ++ lead.first_name ++ ",\n\n" ++
    "Suite à votre demande concernant " ++
    pyReplaceChar '_' ' ' lead.service_type.value ++
    ", j\x27ai le plaisir de vous transmettre notre proposition commerciale.\n\n" ++
    "Vous trouverez ci-joint le devis détaillé pour un montant total de " ++
    pyFormatComma2 devis.total_ttc ++ "€ TTC.\n\n" ++
    "Ce devis est valable 30 jours. N\x27hésitez pas à me contacter pour toute question.\n\n" ++
    "À très bientôt,\n\nJuliette\nConsultante nana-intelligence"
  { subject := subject,
    body_html := convert_to_html body_text lead devis,
    body_text := body_text }

/-- `EmailGenerator.generate` (`src/agent/email_generator.py`).  The
LLM call is the only fallible step inside the `try`; its outcome is
the `llmResult` parameter.  On success the response is parsed, on any
failure the deterministic fallback is returned; prompt construction
(`_build_email_prompt`, which also consumes `company_context`) is a
total string computation and does not affect the result. -/
def EmailGenerator.generate (lead : LeadRequest) (devis : DevisContent)
    (_company_context : Option String) (llmResult : Except String String) :
    GeneratedEmail :=
  match llmResult with
  | .ok response => parse_email_response response lead devis
  | .error _ => generate_fallback_email lead devis

/-! ## Orchestrator (`src/agent/orchestrator.py`) -/

/-- `ProcessingResult` dataclass (`src/agent/orchestrator.py`). -/
structure ProcessingResult where
  success : Bool
  lead_reference : String
  devis_reference : Option String := none
  pdf_path : Option String := none
  draft_id : Option String := none
  error : Option String := none
  total_ttc : Option Rat := none
  processing_time_ms : Int := 0
  email_subject : Option String := none
  deriving Repr, DecidableEq

/-- The methods that class `DevisGenerator`
(`src/agent/devis_generator.py`) actually defines. -/
def devisGeneratorMethods : List String :=
  ["generate", "_get_rag_context", "_parse_response",
   "_estimate_price_from_budget", "_build_devis_content"]

/-- `str(e)` for the `AttributeError` Python raises at
`self.devis_generator.generate_with_context(lead)`
(`src/agent/orchestrator.py`, line 68): `generate_with_context` is not
among `devisGeneratorMethods`, so the attribute lookup fails on every
call. -/
def generate_with_context_error : String :=
  "\x27DevisGenerator\x27 object has no attribute \x27generate_with_context\x27"

/-- The orchestrator's step-1 call
`self.devis_generator.generate_with_context(lead)`: class
`DevisGenerator` defines no such method (see
`devisGeneratorMethods`), so the call raises `AttributeError` before
any quote is produced. -/
def generate_with_context (_lead : LeadRequest) :
    Except String (DevisContent × String) :=
  .error generate_with_context_error

/-- `AgentOrchestrator.process_lead` (`src/agent/orchestrator.py`),
with the collaborator calls as parameters: `devisStep` is the
`generate_with_context` call, `pdfStep` the PDF rendering, `emailLlm`
the LLM outcome consumed by `EmailGenerator.generate`,
`gmailConfigured` the `gmail_service.is_configured()` answer and
`draftStep` the outcome of the `create_draft` call (including the
`draft_result['draft_id']` access).  A draft failure is caught by the
inner `try` and leaves `draft_id` at `None`; any failure in steps 1-2
reaches the outer `except` and yields a failure result.  The elapsed
wall-clock time is the `elapsed_ms` parameter. -/
def processLeadWith
    (devisStep : LeadRequest → Except String (DevisContent × String))
    (pdfStep : DevisContent → Except String String)
    (emailLlm : Except String String)
    (gmailConfigured : Bool)
    (draftStep : Except String String)
    (lead : LeadRequest) (elapsed_ms : Int) : ProcessingResult :=
  match devisStep lead with
  | .error e =>
    { success := false, lead_reference := lead.tally_response_id,
      error := some e, processing_time_ms := elapsed_ms }
  | .ok (devis, company_context) =>
    match pdfStep devis with
    | .error e =>
      { success := false, lead_reference := lead.tally_response_id,
        error := some e, processing_time_ms := elapsed_ms }
    | .ok pdf_path =>
      let email : GeneratedEmail :=
        EmailGenerator.generate lead devis
          (if company_context = "" then none else some company_context)
          emailLlm
      let draft_id : Option String :=
        if gmailConfigured then
          match draftStep with
          | .ok d => some d
          | .error _ => none
        else none
      { success := true, lead_reference := lead.tally_response_id,
        devis_reference := some devis.reference,
        pdf_path := some pdf_path,
        draft_id := draft_id,
        total_ttc := some devis.total_ttc,
        processing_time_ms := elapsed_ms,
        email_subject := some email.subject }

/-- `AgentOrchestrator.process_lead` of the program as written: step 1
is the actual (attribute-missing) `generate_with_context` call; the
remaining collaborators stay parameters since they are never
reached. -/
def process_lead
    (pdfStep : DevisContent → Except String String)
    (emailLlm : Except String String)
    (gmailConfigured : Bool)
    (draftStep : Except String String)
    (lead : LeadRequest) (elapsed_ms : Int) : ProcessingResult :=
  processLeadWith generate_with_context pdfStep emailLlm gmailConfigured
    draftStep lead elapsed_ms

/-! ## Idempotency cache (`main.py`, lines 26-97)

Python dicts keyed by `response_id` are modelled as
insertion-ordered association lists with unique keys; `time.time()`
values are `Int` seconds. -/

/-- Lookup in a Python-dict-like association list. -/
def alistLookup {β : Type} (l : List (String × β)) (k : String) : Option β :=
  (l.find? (fun p => p.1 = k)).map (·.2)

/-- Python dict assignment: update in place when the key exists,
append otherwise. -/
def alistInsert {β : Type} (k : String) (v : β) :
    List (String × β) → List (String × β)
  | [] => [(k, v)]
  | p :: rest =>
    if p.1 = k then (k, v) :: rest else p :: alistInsert k v rest

/-- Python `del d[k]`. -/
def alistErase {β : Type} (k : String) (l : List (String × β)) :
    List (String × β) :=
  l.filter (fun p => !(p.1 = k))

/-- `CACHE_EXPIRY_SECONDS` (`main.py`): completed-entry retention. -/
def CACHE_EXPIRY_SECONDS : Int := 3600

/-- `PROCESSING_TIMEOUT_SECONDS` (`main.py`): in-flight abandonment
timeout. -/
def PROCESSING_TIMEOUT_SECONDS : Int := 300

/-- The two module-level caches of `main.py`:
`PROCESSED_LEADS_CACHE : dict[str, (timestamp, result)]` and
`PROCESSING_LEADS_CACHE : dict[str, timestamp_start]`. -/
structure CacheState (α : Type) where
  processed : List (String × Int × α) := []
  processing : List (String × Int) := []
  deriving Repr

/-- `cleanup_expired_cache` (`main.py`): drop completed entries older
than one hour and in-flight entries older than five minutes. -/
def cleanup_expired_cache {α : Type} (now : Int) (st : CacheState α) :
    CacheState α :=
  { processed :=
      st.processed.filter (fun e => decide (now - e.2.1 ≤ CACHE_EXPIRY_SECONDS)),
    processing :=
      st.processing.filter (fun e => decide (now - e.2 ≤ PROCESSING_TIMEOUT_SECONDS)) }

/-- `is_lead_already_processed_or_processing` (`main.py`): purge
expired entries first, then report `(is_duplicate,
cached_result_or_None)`; the purged state is returned alongside. -/
def is_lead_already_processed_or_processing {α : Type} (response_id : String)
    (now : Int) (st : CacheState α) : (Bool × Option α) × CacheState α :=
  let st := cleanup_expired_cache now st
  match alistLookup st.processed response_id with
  | some (_, result) => ((true, some result), st)
  | none =>
    if (alistLookup st.processing response_id).isSome then
      ((true, none), st)
    else
      ((false, none), st)

/-- `mark_lead_as_processing` (`main.py`). -/
def mark_lead_as_processing {α : Type} (response_id : String) (now : Int)
    (st : CacheState α) : CacheState α :=
  { st with processing := alistInsert response_id now st.processing }

/-- `mark_lead_as_processed` (`main.py`): remove the in-flight marker,
then record the completed result (overwriting any previous one). -/
def mark_lead_as_processed {α : Type} (response_id : String) (result : α)
    (now : Int) (st : CacheState α) : CacheState α :=
  { processed := alistInsert response_id (now, result) st.processed,
    processing := alistErase response_id st.processing }

/-- The `del PROCESSING_LEADS_CACHE[...]` in the exception path of
`process_lead_background` (`main.py`, lines 324-325): release the
in-flight marker without recording completion. -/
def release_processing {α : Type} (response_id : String)
    (st : CacheState α) : CacheState α :=
  { st with processing := alistErase response_id st.processing }

/-- The sequential executions the spec's claim quantifies over: checks
(which purge), a check answering NotSeen immediately followed by
`mark_lead_as_processing`, `mark_lead_as_processed` at any time, and
the exception-path release. -/
inductive CacheStep {α : Type} : CacheState α → CacheState α → Prop
  | query (id : String) (now : Int) (st : CacheState α) :
      CacheStep st (is_lead_already_processed_or_processing id now st).2
  | markProcessing (id : String) (now : Int) (st : CacheState α)
      (hNotSeen : (is_lead_already_processed_or_processing id now st).1 = (false, none)) :
      CacheStep st
        (mark_lead_as_processing id now
          (is_lead_already_processed_or_processing id now st).2)
  | markProcessed (id : String) (r : α) (now : Int) (st : CacheState α) :
      CacheStep st (mark_lead_as_processed id r now st)
  | release (id : String) (st : CacheState α) :
      CacheStep st (release_processing id st)

/-- States reachable from the empty caches at process start. -/
def CacheReachable {α : Type} (st : CacheState α) : Prop :=
  Relation.ReflTransGen CacheStep {} st

/-- An id is in at most one of the two cache states. -/
def CacheInv {α : Type} (st : CacheState α) : Prop :=
  ∀ id, ¬((alistLookup st.processed id).isSome ∧
          (alistLookup st.processing id).isSome)

/-! ## Webhook endpoint (`main.py`, lines 328-406) -/

/-- A parsed JSON value (the result of `await request.json()`). -/
inductive JVal where
  | jnull
  | jbool (b : Bool)
  | jnum (q : Rat)
  | jstr (s : String)
  | jarr (xs : List JVal)
  | jobj (fields : List (String × JVal))
  deriving Repr

/-- Python exceptions distinguished by the webhook handler's `except`
clauses.  `valueError` covers `json.JSONDecodeError` and pydantic's
`ValidationError`, both subclasses of `ValueError`;
`httpException` is *not* a `ValueError`. -/
inductive PyExc where
  | httpException (status : Nat) (detail : String)
  | valueError (msg : String)
  | typeError (msg : String)
  | attributeError (msg : String)
  deriving Repr, DecidableEq

/-- `WebhookResponse` (`src/models.py`). -/
structure WebhookResponse where
  success : Bool
  message : String
  lead_reference : Option String := none
  draft_id : Option String := none
  data : Option (List (String × String)) := none
  deriving Repr, DecidableEq

/-- Python dict lookup `d.get(k)` on a parsed JSON object. -/
def getField (fs : List (String × JVal)) (k : String) : Option JVal :=
  (fs.find? (fun p => p.1 = k)).map (·.2)

/-- `TallyFieldOption` (`src/integrations/tally.py`). -/
structure TallyFieldOption where
  id : String
  text : String
  deriving Repr, DecidableEq

/-- The union type of `TallyField.value`:
`str | list[str] | bool | None`. -/
inductive TallyValue where
  | vstr (s : String)
  | vlist (ids : List String)
  | vbool (b : Bool)
  | vnull
  deriving Repr, DecidableEq

/-- `TallyField` (`src/integrations/tally.py`). -/
structure TallyField where
  key : String
  label : String
  type : String
  value : TallyValue := .vnull
  options : Option (List TallyFieldOption) := none
  deriving Repr, DecidableEq

/-- `TallyField.get_text_value` (`src/integrations/tally.py`):
strings verbatim, bools via `str()`, dropdown/checkbox ids resolved
through `options` (first matching option per id, `None` when nothing
was selected or `options` is falsy). -/
def TallyField.get_text_value (f : TallyField) : Option String :=
  match f.value with
  | .vstr s => some s
  | .vbool b => some (if b then "True" else "False")
  | .vlist ids =>
    match f.options with
    | some opts =>
      if opts = [] then none
      else
        let selected : List String :=
          ids.filterMap (fun oid =>
            (opts.find? (fun o => o.id = oid)).map (·.text))
        if selected = [] then none
        else some (String.intercalate ", " selected)
    | none => none
  | .vnull => none

/-- `TallyFormData` (`src/integrations/tally.py`).  `createdAt` is
kept as its raw string; every claim is independent of datetime
parsing. -/
structure TallyFormData where
  responseId : String
  submissionId : String
  respondentId : String
  formId : String
  formName : String
  createdAt : String
  fields : List TallyField
  deriving Repr, DecidableEq

/-- `TallyFormData.get_field_by_label`: case- and
whitespace-insensitive label match (field labels additionally lose
embedded newlines). -/
def TallyFormData.get_field_by_label (d : TallyFormData) (label : String) :
    Option TallyField :=
  let normalized : String := pyStripStr ⟨pyLower label.data⟩
  d.fields.find? (fun f =>
    pyReplaceStr (pyStripStr ⟨pyLower f.label.data⟩) "\n" "" = normalized)

/-- `TallyFormData.get_field_value`. -/
def TallyFormData.get_field_value (d : TallyFormData) (label : String) :
    Option String :=
  (d.get_field_by_label label).bind TallyField.get_text_value

/-- `TallyWebhookPayload` (`src/integrations/tally.py`). -/
structure TallyWebhookPayload where
  eventId : String
  eventType : String
  createdAt : String
  data : TallyFormData
  deriving Repr, DecidableEq

/-- Pydantic parse of a required string field. -/
def jStr? (fs : List (String × JVal)) (k : String) : Except PyExc String :=
  match getField fs k with
  | some (.jstr s) => .ok s
  | some _ => .error (.valueError (k ++ ": Input should be a valid string"))
  | none => .error (.valueError (k ++ ": Field required"))

/-- Pydantic parse of one element of `TallyField.options`. -/
def parseTallyFieldOption (v : JVal) : Except PyExc TallyFieldOption := do
  match v with
  | .jobj fs =>
    let id ← jStr? fs "id"
    let text ← jStr? fs "text"
    pure { id := id, text := text }
  | _ => .error (.valueError "options: Input should be a valid dictionary")

/-- Pydantic parse of a `TallyField`. -/
def parseTallyField (v : JVal) : Except PyExc TallyField := do
  match v with
  | .jobj fs =>
    let key ← jStr? fs "key"
    let label ← jStr? fs "label"
    let ftype ← jStr? fs "type"
    let value ← match getField fs "value" with
      | none | some .jnull => pure TallyValue.vnull
      | some (.jstr s) => pure (TallyValue.vstr s)
      | some (.jbool b) => pure (TallyValue.vbool b)
      | some (.jarr xs) => do
        let ids ← xs.mapM (fun x => match x with
          | .jstr s => Except.ok s
          | _ => Except.error (PyExc.valueError
              "value: Input should be a valid string"))
        pure (TallyValue.vlist ids)
      | some _ => .error (.valueError "value: Input should be a valid value")
    let options ← match getField fs "options" with
      | none | some .jnull => pure (none : Option (List TallyFieldOption))
      | some (.jarr xs) => do
        let opts ← xs.mapM parseTallyFieldOption
        pure (some opts)
      | some _ => .error (.valueError "options: Input should be a valid list")
    pure { key := key, label := label, type := ftype,
           value := value, options := options }
  | _ => .error (.valueError "fields: Input should be a valid dictionary")

/-- Pydantic parse of `TallyFormData`. -/
def parseTallyFormData (v : JVal) : Except PyExc TallyFormData := do
  match v with
  | .jobj fs =>
    let responseId ← jStr? fs "responseId"
    let submissionId ← jStr? fs "submissionId"
    let respondentId ← jStr? fs "respondentId"
    let formId ← jStr? fs "formId"
    let formName ← jStr? fs "formName"
    let createdAt ← jStr? fs "createdAt"
    let fields ← match getField fs "fields" with
      | some (.jarr xs) => xs.mapM parseTallyField
      | some _ => .error (.valueError "fields: Input should be a valid list")
      | none => .error (.valueError "fields: Field required")
    pure { responseId := responseId, submissionId := submissionId,
           respondentId := respondentId, formId := formId,
           formName := formName, createdAt := createdAt, fields := fields }
  | _ => .error (.valueError "data: Input should be a valid dictionary")

/-- `TallyWebhookPayload(**payload_data)` (`main.py`, line 351):
pydantic validation of the envelope; a non-dict argument raises
`TypeError` at the `**` unpacking. -/
def parseTallyPayload (v : JVal) : Except PyExc TallyWebhookPayload := do
  match v with
  | .jobj fs =>
    let eventId ← jStr? fs "eventId"
    let eventType ← jStr? fs "eventType"
    let createdAt ← jStr? fs "createdAt"
    let data ← match getField fs "data" with
      | some d => parseTallyFormData d
      | none => .error (.valueError "data: Field required")
    pure { eventId := eventId, eventType := eventType,
           createdAt := createdAt, data := data }
  | _ => .error (.typeError "argument after ** must be a mapping")

/-- `SERVICE_TYPE_MAPPING` (`src/integrations/tally_service.py`). -/
def SERVICE_TYPE_MAPPING : List (String × ServiceType) :=
  [("mass mailing & lead gen", .mass_mailing),
   ("automatisation & ia", .automation_ia),
   ("seo & growth hacking", .seo_growth)]

/-- Pydantic validation of `LeadRequest` (`src/models.py`):
`first_name`/`last_name` at least 2 characters,
`project_description` at least 10, and `email` a valid address
(modelled as containing an `'@'`; the claims are independent of the
exact `EmailStr` grammar). -/
def validateLeadRequest (first_name last_name email : String)
    (company website : Option String) (service_type : ServiceType)
    (project_description : String) (budget_range : Option String)
    (tally_response_id : String) (consent : Bool) :
    Except PyExc LeadRequest :=
  if first_name.length < 2 then
    .error (.valueError "first_name: String should have at least 2 characters")
  else if last_name.length < 2 then
    .error (.valueError "last_name: String should have at least 2 characters")
  else if !(pyContains email "@") then
    .error (.valueError "email: value is not a valid email address")
  else if project_description.length < 10 then
    .error (.valueError "project_description: String should have at least 10 characters")
  else
    .ok { first_name := first_name, last_name := last_name, email := email,
          company := company, website := website,
          service_type := service_type,
          project_description := project_description,
          budget_range := budget_range,
          tally_response_id := tally_response_id, consent := consent }

/-- `parse_tally_to_lead` (`src/integrations/tally_service.py`):
extract the labelled fields, raise `ValueError` for each missing/empty
required one, map the service text (falling back to mass mailing), and
build the validated `LeadRequest`. -/
def parse_tally_to_lead (payload : TallyWebhookPayload) :
    Except PyExc LeadRequest := do
  let form_data := payload.data
  let first_name := form_data.get_field_value "Prénom"
  let last_name := form_data.get_field_value "Nom"
  let email := form_data.get_field_value "Email Pro"
  let company := form_data.get_field_value "Entreprise"
  let website := form_data.get_field_value "Site Web"
  let service_type_text := form_data.get_field_value "Type de service"
  let project_description := form_data.get_field_value "Votre Besoin"
  let budget_range := form_data.get_field_value "Budget estimé"
  let consent_text := form_data.get_field_value "Consentement"
  if !(pyTruthy first_name) then
    Except.error (.valueError "Le champ \x27Prénom\x27 est requis")
  else if !(pyTruthy last_name) then
    Except.error (.valueError "Le champ \x27Nom\x27 est requis")
  else if !(pyTruthy email) then
    Except.error (.valueError "Le champ \x27Email Pro\x27 est requis")
  else if !(pyTruthy service_type_text) then
    Except.error (.valueError "Le champ \x27Type de service\x27 est requis")
  else if !(pyTruthy project_description) then
    Except.error (.valueError "Le champ \x27Votre Besoin\x27 est requis")
  else do
    let service_type : ServiceType :=
      match service_type_text with
      | some t =>
        match alistLookup SERVICE_TYPE_MAPPING
            (pyStripStr ⟨pyLower t.data⟩) with
        | some s => s
        | none => .mass_mailing
      | none => .mass_mailing
    validateLeadRequest (first_name.getD "") (last_name.getD "")
      (email.getD "") company website service_type
      (project_description.getD "") budget_range
      form_data.responseId (pyTruthy consent_text)

/-- The body of the `try` block of `webhook_tally` (`main.py`, lines
337-399): envelope unwrapping, payload validation, event filtering,
lead normalization, idempotency check, in-flight marking, and the
immediate acknowledgment.  The returned triple is (response, cache
state after the synchronous phase, lead handed to the background
task). -/
def webhookRun (raw_body : Option JVal) (st : CacheState WebhookResponse)
    (now : Int) :
    Except PyExc (WebhookResponse × CacheState WebhookResponse × Option LeadRequest) := do
  let raw ← match raw_body with
    | none => Except.error (PyExc.valueError "Expecting value")
    | some v => pure v
  let payload_data ← match raw with
    | .jarr [] => Except.error (PyExc.httpException 400 "Payload Tally vide")
    | .jarr (x :: _) =>
      match x with
      | .jobj fs => pure ((getField fs "body").getD x)
      | _ => Except.error (PyExc.attributeError "object has no attribute get")
    | .jobj fs => pure ((getField fs "body").getD raw)
    | _ => Except.error (PyExc.attributeError "object has no attribute get")
  let tally ← parseTallyPayload payload_data
  if tally.eventType ≠ "FORM_RESPONSE" then
    pure ({ success := true,
            message := "Événement ignoré: " ++ tally.eventType }, st, none)
  else do
    let lead ← parse_tally_to_lead tally
    let checked := is_lead_already_processed_or_processing
      lead.tally_response_id now st
    let st1 := checked.2
    match checked.1 with
    | (true, some cached) => pure (cached, st1, none)
    | (true, none) =>
      pure ({ success := true,
              message := "Lead déjà en cours de traitement",
              lead_reference := some lead.tally_response_id }, st1, none)
    | (false, _) =>
      let st2 := mark_lead_as_processing lead.tally_response_id now st1
      pure ({ success := true,
              message := "Lead " ++ lead.tally_response_id ++
                " accepté, traitement en cours",
              lead_reference := some lead.tally_response_id }, st2, some lead)

/-- `webhook_tally` (`main.py`): the `try` body together with its two
`except` clauses.  `except ValueError` re-raises as HTTP 422;
`except Exception` re-raises as HTTP 500 — and since
`HTTPException` is not a `ValueError`, the `400` raised for an empty
array is intercepted there and surfaces as a 500. -/
def webhook_tally (raw_body : Option JVal) (st : CacheState WebhookResponse)
    (now : Int) :
    Except (Nat × String) WebhookResponse × CacheState WebhookResponse ×
      Option LeadRequest :=
  match webhookRun raw_body st now with
  | .ok (resp, st2, bg) => (.ok resp, st2, bg)
  | .error (.valueError m) => (.error (422, m), st, none)
  | .error _ => (.error (500, "Erreur interne du serveur"), st, none)

/-! ## Concrete example inputs

Inputs used by counterexamples and witnesses below; all are ordinary
values of the embedded data model. -/

/-- A quote whose single line has the three-decimal unit price 0.03. -/
def devisCent : DevisContent :=
  { reference := "DEV-20260101-AAAAAAAA",
    client_name := "Jimmy Gay", client_email := "jimmygay13180@gmail.com",
    title := "Devis Mass Mailing - nana-intelligence",
    introduction := "Bonjour, voici notre proposition.",
    items := [{ description := "Prestation", quantity := 1, unit_price := 3 / 100 }],
    conditions := "Devis valable 30 jours." }

/-- The spec's end-to-end example lead (spec §8). -/
def leadJimmy : LeadRequest :=
  { first_name := "Jimmy", last_name := "Gay",
    email := "jimmygay13180@gmail.com",
    company := some "nana-intelligence",
    service_type := .mass_mailing,
    project_description := "Augmenter mon référencement et ma visibilité",
    budget_range := some "< 1 000€",
    tally_response_id := "GxZYdqj" }

/-- A lead whose budget hint is `"moins de 1000€"`. -/
def leadMoins : LeadRequest :=
  { leadJimmy with budget_range := some "moins de 1000€" }

/-- The quote built from `leadJimmy`'s fallback (single 800€ line). -/
def devisJimmy : DevisContent :=
  { reference := "DEV-20260101-BBBBBBBB",
    client_name := "Jimmy Gay", client_email := "jimmygay13180@gmail.com",
    client_company := some "nana-intelligence",
    title := "Devis Mass Mailing - nana-intelligence",
    introduction := "Bonjour, voici notre proposition.",
    items := [{ description := "Prestation Mass Mailing", quantity := 1,
                unit_price := 800 }],
    conditions := "Devis valable 30 jours." }

/-- A quote line as returned by the LLM with string-typed numbers. -/
def lineStrings : LineInput :=
  { description := some (.jstr "Conseil"),
    quantite := some (.jstr "5"),
    prix_unitaire := some (.jstr "1 500€") }

/-- A quote line whose `prix_unitaire` field is absent. -/
def lineNoPrice : LineInput :=
  { description := some (.jstr "Conseil") }

/-- One Tally form field with a plain text value. -/
def mkTallyFieldJ (label v : String) : JVal :=
  .jobj [("key", .jstr label), ("label", .jstr label),
         ("type", .jstr "INPUT_TEXT"), ("value", .jstr v)]

/-- The form fields of the spec's example submission. -/
def formFieldsJ : List JVal :=
  [mkTallyFieldJ "Prénom" "Jimmy",
   mkTallyFieldJ "Nom" "Gay",
   mkTallyFieldJ "Email Pro" "jimmygay13180@gmail.com",
   mkTallyFieldJ "Entreprise" "nana-intelligence",
   mkTallyFieldJ "Type de service" "Mass Mailing & Lead Gen",
   mkTallyFieldJ "Votre Besoin" "Augmenter mon référencement et ma visibilité",
   mkTallyFieldJ "Budget estimé" "< 1 000€"]

/-- A full Tally webhook envelope with the given event type and form
fields. -/
def tallyEnvelope (etype : String) (fields : List JVal) : JVal :=
  .jobj [("eventId", .jstr "ev1"), ("eventType", .jstr etype),
    ("createdAt", .jstr "2026-01-01T00:00:00Z"),
    ("data", .jobj [("responseId", .jstr "GxZYdqj"),
      ("submissionId", .jstr "subm"), ("respondentId", .jstr "resp"),
      ("formId", .jstr "form"), ("formName", .jstr "Demande de devis"),
      ("createdAt", .jstr "2026-01-01T00:00:00Z"),
      ("fields", .jarr fields)])]

/-- A valid `FORM_RESPONSE` envelope. -/
def validTallyBody : JVal := tallyEnvelope "FORM_RESPONSE" formFieldsJ

/-- The same envelope with the required `Prénom` field missing. -/
def noPrenomBody : JVal :=
  tallyEnvelope "FORM_RESPONSE" (formFieldsJ.drop 1)

/-- An envelope with a non-`FORM_RESPONSE` event type. -/
def ignoredBody : JVal := tallyEnvelope "FORM_CREATED" formFieldsJ

/-- A cache state in which lead `GxZYdqj` is marked in flight at
time 0. -/
def stInflight : CacheState WebhookResponse :=
  { processing := [("GxZYdqj", 0)] }

/-- A stale cache state: a completed entry recorded at time 0 and an
in-flight marker set at time 100, both long expired at time 4000. -/
def stStale : CacheState String :=
  { processed := [("GxZYdqj", 0, "done")],
    processing := [("GxZYdqj", 100)] }

/-- Text containing two brace-delimited candidates, the longer one
nested one level (`x{a}y{b{c}d}z`). -/
def textTwoCandidates : List Char :=
  ['x', '{', 'a', '}', 'y', '{', 'b', '{', 'c', '}', 'd', '}', 'z']

/-- The longer candidate of `textTwoCandidates` (`{b{c}d}`). -/
def longCandidate : List Char :=
  ['{', 'b', '{', 'c', '}', 'd', '}']

/-! ## Helper lemmas -/

/-- Substring containment holds for the middle part of a three-way
concatenation. -/
theorem pyContains_append_middle (a b c : String) :
    pyContains (a ++ b ++ c) b = true := by
  unfold pyContains listContainsSub
  rw [List.any_eq_true]
  refine ⟨b.data ++ c.data, ?_, ?_⟩
  · rw [List.mem_tails, String.data_append, String.data_append]
    exact ⟨a.data, by rw [List.append_assoc]⟩
  · exact List.isPrefixOf_iff_prefix.mpr ⟨c.data, rfl⟩

/-! ## Claim C1 -/

/-- C1: for every `LeadRequest`, `AgentOrchestrator.process_lead`
never raises (it is a total function into `ProcessingResult`) and
returns a failure result whose `error` is the `AttributeError` message
of the undefined `generate_with_context` and whose `lead_reference` is
the lead's `tally_response_id`, whatever the other collaborators do. -/
theorem c1_process_lead_always_fails
    (pdfStep : DevisContent → Except String String)
    (emailLlm : Except String String) (gmailConfigured : Bool)
    (draftStep : Except String String) (lead : LeadRequest)
    (elapsed_ms : Int) :
    (process_lead pdfStep emailLlm gmailConfigured draftStep lead
        elapsed_ms).success = false ∧
    (process_lead pdfStep emailLlm gmailConfigured draftStep lead
        elapsed_ms).error = some generate_with_context_error ∧
    (process_lead pdfStep emailLlm gmailConfigured draftStep lead
        elapsed_ms).lead_reference = lead.tally_response_id :=
  ⟨rfl, rfl, rfl⟩

/-! ## Claim C2 -/

/-- C2 counterexample: for the quote whose single line is priced 0.03,
the computed `total_ttc` is 0.036, while
`round(Σ(quantity×unit_price) × 1.2, 2)` is 0.04 — the source never
rounds, so the claimed equation fails. -/
theorem c2_rounding_counterexample :
    devisCent.total_ttc = 9 / 250 ∧
    pyRound2 ((devisCent.items.map DevisItem.total).sum * (12 / 10)) = 1 / 25 ∧
    devisCent.total_ttc ≠
      pyRound2 ((devisCent.items.map DevisItem.total).sum * (12 / 10)) := by
  have hsum : (devisCent.items.map DevisItem.total).sum = 3 / 100 := by
    simp [devisCent, DevisItem.total]
  have h1 : devisCent.total_ttc = 9 / 250 := by
    unfold DevisContent.total_ttc DevisContent.tva DevisContent.subtotal
    rw [hsum]; norm_num
  have hfl : ⌊(100 : Rat) * (9 / 250)⌋ = (3 : Int) := by
    norm_num [Int.floor_eq_iff]
  have h2 : pyRound2 ((devisCent.items.map DevisItem.total).sum * (12 / 10)) =
      1 / 25 := by
    rw [show ((devisCent.items.map DevisItem.total).sum * (12 / 10) : Rat) =
      9 / 250 by rw [hsum]; norm_num]
    unfold pyRound2 bankersRound
    rw [hfl]
    norm_num
  refine ⟨h1, h2, ?_⟩
  rw [h1, h2]
  norm_num

/-- C2 amended: for every quote with a non-empty items list, the total
equals `Σ(quantity×unit_price) × 1.2` exactly (no rounding), with
subtotal, tax and total recomputed from the items. -/
theorem c2_total_recomputed (d : DevisContent) (_h : d.items ≠ []) :
    d.total_ttc = (d.items.map DevisItem.total).sum * (6 / 5) ∧
    d.subtotal = (d.items.map DevisItem.total).sum ∧
    d.tva = d.subtotal * (20 / 100) ∧
    d.total_ttc = d.subtotal + d.tva := by
  refine ⟨?_, rfl, rfl, rfl⟩
  unfold DevisContent.total_ttc DevisContent.tva DevisContent.subtotal
  ring

/-- Witness for `c2_total_recomputed` at the 800€ single-line quote. -/
theorem c2_total_recomputed_witness :
    devisJimmy.total_ttc = (devisJimmy.items.map DevisItem.total).sum * (6 / 5) :=
  (c2_total_recomputed devisJimmy (by decide)).1

/-! ## Claim C5 -/

/-- C5: when quote generation and PDF rendering succeed but the Gmail
draft creation fails, the result still has `success = true` with
`draft_id = none`; a failure in quote generation or PDF rendering
yields `success = false`. -/
theorem c5_draft_failure_policy
    (devisStep : LeadRequest → Except String (DevisContent × String))
    (pdfStep : DevisContent → Except String String)
    (lead : LeadRequest) (elapsed_ms : Int) :
    (∀ devis ctx pdfPath emailLlm draftErr,
      devisStep lead = .ok (devis, ctx) → pdfStep devis = .ok pdfPath →
      ((processLeadWith devisStep pdfStep emailLlm true (.error draftErr)
          lead elapsed_ms).success = true ∧
       (processLeadWith devisStep pdfStep emailLlm true (.error draftErr)
          lead elapsed_ms).draft_id = none ∧
       (processLeadWith devisStep pdfStep emailLlm true (.error draftErr)
          lead elapsed_ms).devis_reference = some devis.reference ∧
       (processLeadWith devisStep pdfStep emailLlm true (.error draftErr)
          lead elapsed_ms).pdf_path = some pdfPath))
  ∧ (∀ e emailLlm gmailConfigured draftStep,
      (processLeadWith (fun _ => Except.error e) pdfStep emailLlm
        gmailConfigured draftStep lead elapsed_ms).success = false)
  ∧ (∀ devis ctx e emailLlm gmailConfigured draftStep,
      devisStep lead = .ok (devis, ctx) → pdfStep devis = .error e →
      (processLeadWith devisStep pdfStep emailLlm gmailConfigured draftStep
        lead elapsed_ms).success = false) := by
  refine ⟨?_, ?_, ?_⟩
  · intro devis ctx pdfPath emailLlm draftErr hd hp
    simp [processLeadWith, hd, hp]
  · intro e emailLlm gmailConfigured draftStep
    simp [processLeadWith]
  · intro devis ctx e emailLlm gmailConfigured draftStep hd hp
    simp [processLeadWith, hd, hp]

/-- Witness for `c5_draft_failure_policy`: concrete successful steps
with a failing draft creation. -/
theorem c5_draft_failure_policy_witness :
    (processLeadWith (fun _ => Except.ok (devisJimmy, ""))
        (fun _ => Except.ok "output/devis.pdf") (Except.error "llm down")
        true (.error "gmail down") leadJimmy 7).success = true ∧
    (processLeadWith (fun _ => Except.ok (devisJimmy, ""))
        (fun _ => Except.ok "output/devis.pdf") (Except.error "llm down")
        true (.error "gmail down") leadJimmy 7).draft_id = none := by
  have h := (c5_draft_failure_policy (fun _ => Except.ok (devisJimmy, ""))
    (fun _ => Except.ok "output/devis.pdf") leadJimmy 7).1 devisJimmy ""
    "output/devis.pdf" (Except.error "llm down") "gmail down" rfl rfl
  exact ⟨h.1, h.2.1⟩

/-! ## Claim C6 -/

/-- C6: `EmailGenerator.generate` is total (never propagates an
exception) and on any internal failure returns the deterministic
fallback email, whose subject is the lead's first name followed by the
quote reference and whose body is the fixed sentence structure
substituting lead and quote fields. -/
theorem c6_email_generate_fallback (lead : LeadRequest)
    (devis : DevisContent) (ctx : Option String) (e : String) :
    EmailGenerator.generate lead devis ctx (.error e) =
      generate_fallback_email lead devis ∧
    (generate_fallback_email lead devis).subject =
      lead.first_name ++ ", votre proposition commerciale " ++
        devis.reference ∧
    (generate_fallback_email lead devis).body_text =
      "Bonjour " ++ lead.first_name ++ ",\n\n" ++
      "Suite à votre demande concernant " ++
      pyReplaceChar '_' ' ' lead.service_type.value ++
      ", j\x27ai le plaisir de vous transmettre notre proposition commerciale.\n\n" ++
      "Vous trouverez ci-joint le devis détaillé pour un montant total de " ++
      pyFormatComma2 devis.total_ttc ++ "€ TTC.\n\n" ++
      "Ce devis est valable 30 jours. N\x27hésitez pas à me contacter pour toute question.\n\n" ++
      "À très bientôt,\n\nJuliette\nConsultante nana-intelligence" ∧
    (∀ llmResult : Except String String, ∃ em : GeneratedEmail,
      EmailGenerator.generate lead devis ctx llmResult = em) :=
  ⟨rfl, rfl, rfl, fun _ => ⟨_, rfl⟩⟩

/-! ## Claim C4 -/

/-- C4 counterexample: for the budget hint `"moins de 1000€"` the
source's fallback prices the single line at 800 (the `"moins de 1"`
clause of the first bucket), while the claim's table — whose first
bucket lists only `"<1"`/`"< 1"` — assigns 12000 via its
`"10"`-contains bucket. -/
theorem c4_bucket_counterexample :
    ((parse_response none none leadMoins).lignes_devis.map
        (fun l => l.prix_unitaire)) = [800] ∧
    claimedBucket leadMoins.budget_range = 12000 ∧
    (800 : Rat) ≠ 12000 := by
  refine ⟨by decide, by decide, by norm_num⟩

/-- C4 amended: when both parse tiers fail, `_parse_response` returns
the contextual fallback, whose title contains the service category
name (and the company name when present), and whose single line is
priced by `_estimate_price_from_budget` — the claim's bucket table
with `"moins de 1"` added to the first (800) bucket; in particular
budget `"3-5k€"` gives exactly 4000. -/
theorem c4_fallback_payload (lead : LeadRequest) :
    parse_response none none lead = fallbackPayload lead ∧
    ((fallbackPayload lead).lignes_devis.map (fun l => l.prix_unitaire)) =
      [estimate_price_from_budget lead.budget_range] ∧
    pyContains (fallbackPayload lead).titre (serviceNameOf lead) = true ∧
    estimate_price_from_budget (some "3-5k€") = 4000 := by
  refine ⟨rfl, rfl, ?_, by decide⟩
  show pyContains ("Devis " ++ serviceNameOf lead ++ " - " ++ _)
    (serviceNameOf lead) = true
  rw [String.append_assoc]
  exact pyContains_append_middle "Devis " (serviceNameOf lead) _

/-! ## Claim C7 -/

/-- Every quantity passing `quantite` validation is at least 1. -/
theorem validateQuantiteField_pos {o : Option JPrim} {n : Int}
    (h : validateQuantiteField o = .ok n) : 1 ≤ n := by
  cases o with
  | none =>
    simp only [validateQuantiteField] at h
    injection h with h
    omega
  | some v =>
    simp only [validateQuantiteField, bind, Except.bind, pure, Except.pure] at h
    cases hc : coerce_quantite_to_int v <;> simp only [hc] at h
    · exact Except.noConfusion h
    · split at h
      · injection h with h; subst h; assumption
      · exact Except.noConfusion h

/-- Every unit price passing `prix_unitaire` validation is
non-negative. -/
theorem validatePrixField_nonneg {o : Option JPrim} {q : Rat}
    (h : validatePrixField o = .ok q) : 0 ≤ q := by
  cases o with
  | none => exact Except.noConfusion h
  | some v =>
    simp only [validatePrixField, bind, Except.bind, pure, Except.pure] at h
    cases hc : coerce_prix_to_float v <;> simp only [hc] at h
    · exact Except.noConfusion h
    · split at h
      · injection h with h; subst h; assumption
      · exact Except.noConfusion h

/-- A successful line validation validates each numeric field. -/
theorem validateLLMDevisLine_ok {inp : LineInput} {line : LLMDevisLine}
    (h : validateLLMDevisLine inp = .ok line) :
    validateQuantiteField inp.quantite = .ok line.quantite ∧
    validatePrixField inp.prix_unitaire = .ok line.prix_unitaire := by
  simp only [validateLLMDevisLine, bind, Except.bind, pure, Except.pure] at h
  cases hd : validateDescriptionField inp.description <;> simp only [hd] at h
  · exact Except.noConfusion h
  · cases hdet : validateDetailsField inp.details <;> simp only [hdet] at h
    · exact Except.noConfusion h
    · cases hq : validateQuantiteField inp.quantite <;> simp only [hq] at h
      · exact Except.noConfusion h
      · cases hp : validatePrixField inp.prix_unitaire <;> simp only [hp] at h
        · exact Except.noConfusion h
        · injection h with h
          subst h
          exact ⟨rfl, rfl⟩

/-- C7 counterexample: a line whose `prix_unitaire` field is absent
fails validation with "Field required" instead of defaulting to 0
(`prix_unitaire` has no pydantic default), and a cleaned-but-invalid
price string ("1.2.3€") raises instead of defaulting to 0. -/
theorem c7_price_default_counterexample :
    validateLLMDevisLine lineNoPrice =
      .error "prix_unitaire: Field required" ∧
    coerce_prix_to_float (.jstr "1.2.3€") =
      .error "could not convert string to float" := by
  exact ⟨rfl, rfl⟩

/-- C7 amended: `quantite` is coerced from a string by stripping
non-digits (validated `ge=1`), defaulting to 1 when the field is
absent; `unit_price` is coerced by stripping currency symbols/spaces
and normalising the decimal comma, with explicit `null` or a
digit-free string giving 0 — but a *missing* `prix_unitaire` field or
a non-parseable cleaned string fails validation rather than
defaulting.  In particular `"1 500€"` validates to 1500.0 and
`quantite` `"5"` to 5. -/
theorem c7_line_coercion :
    validateLLMDevisLine lineStrings =
      .ok { description := "Conseil", details := none, quantite := 5,
            prix_unitaire := 1500 } ∧
    (∀ inp line, validateLLMDevisLine inp = .ok line →
      1 ≤ line.quantite ∧ 0 ≤ line.prix_unitaire) ∧
    (∀ inp line, inp.quantite = none →
      validateLLMDevisLine inp = .ok line → line.quantite = 1) ∧
    coerce_prix_to_float .jnull = .ok 0 ∧
    coerce_prix_to_float (.jstr "€") = .ok 0 ∧
    (∀ inp line, inp.prix_unitaire = none →
      validateLLMDevisLine inp = .ok line → False) := by
  refine ⟨rfl, ?_, ?_, rfl, rfl, ?_⟩
  · intro inp line h
    have hv := validateLLMDevisLine_ok h
    exact ⟨validateQuantiteField_pos hv.1, validatePrixField_nonneg hv.2⟩
  · intro inp line hnone h
    have hv := (validateLLMDevisLine_ok h).1
    rw [hnone] at hv
    simp only [validateQuantiteField] at hv
    injection hv with hv
    exact hv.symm
  · intro inp line hnone h
    have hv := (validateLLMDevisLine_ok h).2
    rw [hnone] at hv
    exact Except.noConfusion hv

/-- Witness for `c7_line_coercion` at the string-typed line. -/
theorem c7_line_coercion_witness :
    1 ≤ ({ description := "Conseil", details := none, quantite := 5,
           prix_unitaire := 1500 } : LLMDevisLine).quantite ∧
    0 ≤ ({ description := "Conseil", details := none, quantite := 5,
           prix_unitaire := 1500 } : LLMDevisLine).prix_unitaire :=
  c7_line_coercion.2.1 lineStrings _ c7_line_coercion.1

/-! ## Claim C9 -/

/-- A key all of whose entries fail the filter disappears from an
association list. -/
theorem alistLookup_filter_stale {β : Type} (l : List (String × β))
    (k : String) (p : String × β → Bool)
    (h : ∀ x ∈ l, x.1 = k → p x = false) :
    alistLookup (l.filter p) k = none := by
  unfold alistLookup
  have hf : List.find? (fun e => e.1 = k) (l.filter p) = none := by
    rw [List.find?_eq_none]
    intro x hx
    rw [List.mem_filter] at hx
    intro hk
    rw [decide_eq_true_eq] at hk
    rw [h x hx.1 hk] at hx
    exact Bool.noConfusion hx.2
  rw [hf]
  rfl

/-- A key absent from an association list stays absent after any
filter. -/
theorem alistLookup_filter_none {β : Type} (p : String × β → Bool)
    (l : List (String × β)) (k : String)
    (h : alistLookup l k = none) :
    alistLookup (l.filter p) k = none := by
  apply alistLookup_filter_stale
  intro x hx hk
  exfalso
  unfold alistLookup at h
  cases hf : List.find? (fun e => e.1 = k) l with
  | none =>
    rw [List.find?_eq_none] at hf
    exact hf x hx (by rw [decide_eq_true_eq]; exact hk)
  | some v => rw [hf] at h; exact Option.noConfusion h

/-- C9: a cache check first purges both kinds of expired entries, so
when every completed entry for an id is older than one hour and every
in-flight entry for it older than five minutes, the check answers
"not seen" and the id is gone from both purged caches — the next
submission with that id is treated as new. -/
theorem c9_check_purges_stale {α : Type} (st : CacheState α) (now : Int)
    (id : String)
    (hdone : ∀ ts r, (id, ts, r) ∈ st.processed →
      CACHE_EXPIRY_SECONDS < now - ts)
    (hflight : ∀ ts, (id, ts) ∈ st.processing →
      PROCESSING_TIMEOUT_SECONDS < now - ts) :
    (is_lead_already_processed_or_processing id now st).1 = (false, none) ∧
    alistLookup
      (is_lead_already_processed_or_processing id now st).2.processed id
      = none ∧
    alistLookup
      (is_lead_already_processed_or_processing id now st).2.processing id
      = none := by
  have hp : alistLookup (cleanup_expired_cache now st).processed id = none := by
    apply alistLookup_filter_stale
    intro x hx hk
    obtain ⟨k1, ts, r⟩ := x
    dsimp at hk
    subst hk
    have := hdone ts r hx
    simp only [decide_eq_false_iff_not, CACHE_EXPIRY_SECONDS] at this ⊢
    omega
  have hq : alistLookup (cleanup_expired_cache now st).processing id = none := by
    apply alistLookup_filter_stale
    intro x hx hk
    obtain ⟨k1, ts⟩ := x
    dsimp at hk
    subst hk
    have := hflight ts hx
    simp only [decide_eq_false_iff_not, PROCESSING_TIMEOUT_SECONDS] at this ⊢
    omega
  refine ⟨?_, ?_, ?_⟩ <;>
    simp [is_lead_already_processed_or_processing, hp, hq]

/-- Witness for `c9_check_purges_stale` at the stale state and time
4000: both the hour-old completed entry and the expired in-flight
marker are purged and the check answers "not seen". -/
theorem c9_check_purges_stale_witness :
    (is_lead_already_processed_or_processing "GxZYdqj" 4000 stStale).1 =
      (false, none) :=
  (c9_check_purges_stale stStale 4000 "GxZYdqj"
    (by
      intro ts r h
      simp only [stStale, List.mem_singleton, Prod.mk.injEq, true_and] at h
      obtain ⟨h1, _⟩ := h
      subst h1
      decide)
    (by
      intro ts h
      simp only [stStale, List.mem_singleton, Prod.mk.injEq, true_and] at h
      subst h
      decide)).1

/-! ## Claim C3 -/

set_option maxRecDepth 10000 in
/-- C3: evaluation of the webhook handler on the claim's enumerated
cases.  The empty-array body yields **500**, not the claimed 400: the
`HTTPException(status_code=400)` raised inside the `try` is not a
`ValueError`, so the catch-all `except Exception` intercepts it and
re-raises it as 500.  The remaining cases behave as claimed: 422 for
a missing required form field, 500 for an unexpected internal error
(non-dict body), 200 for a non-`FORM_RESPONSE` event, 200 for a
duplicate whose pipeline is still in flight, and 200 for a fresh
valid submission. -/
theorem c3_webhook_status_eval :
    (webhook_tally (some (.jarr [])) {} 0).1 =
      .error (500, "Erreur interne du serveur") ∧
    (webhook_tally (some noPrenomBody) {} 0).1 =
      .error (422, "Le champ \x27Prénom\x27 est requis") ∧
    (webhook_tally (some (.jnum 5)) {} 0).1 =
      .error (500, "Erreur interne du serveur") ∧
    (webhook_tally (some ignoredBody) {} 0).1 =
      .ok { success := true, message := "Événement ignoré: FORM_CREATED" } ∧
    (webhook_tally (some validTallyBody) stInflight 10).1 =
      .ok { success := true, message := "Lead déjà en cours de traitement",
            lead_reference := some "GxZYdqj" } ∧
    (webhook_tally (some validTallyBody) {} 0).1 =
      .ok { success := true,
            message := "Lead GxZYdqj accepté, traitement en cours",
            lead_reference := some "GxZYdqj" } :=
  ⟨rfl, rfl, rfl, rfl, rfl, rfl⟩

/-! ## Claim C10 -/

/-- Lookup on a cons cell. -/
theorem alistLookup_cons {β : Type} (p : String × β) (l : List (String × β))
    (k : String) :
    alistLookup (p :: l) k = if p.1 = k then some p.2 else alistLookup l k := by
  unfold alistLookup
  by_cases hp : p.1 = k
  · rw [List.find?_cons_of_pos _ (by simpa using hp), if_pos hp]
    rfl
  · rw [List.find?_cons_of_neg _ (by simpa using hp), if_neg hp]

/-- Inserting a key makes it found with the new value. -/
theorem alistLookup_insert_self {β : Type} (k : String) (v : β)
    (l : List (String × β)) :
    alistLookup (alistInsert k v l) k = some v := by
  induction l with
  | nil => simp [alistInsert, alistLookup_cons]
  | cons p rest ih =>
    by_cases hp : p.1 = k
    · simp [alistInsert, hp, alistLookup_cons]
    · simp [alistInsert, hp, alistLookup_cons, ih]

/-- Inserting a key leaves other keys untouched. -/
theorem alistLookup_insert_other {β : Type} {j k : String} (h : j ≠ k)
    (v : β) (l : List (String × β)) :
    alistLookup (alistInsert k v l) j = alistLookup l j := by
  induction l with
  | nil =>
    simp only [alistInsert, alistLookup_cons]
    rw [if_neg (fun hh => h hh.symm)]
  | cons p rest ih =>
    by_cases hp : p.1 = k
    · simp only [alistInsert, if_pos hp, alistLookup_cons]
      rw [if_neg (fun hh => h hh.symm),
        if_neg (fun hh : p.1 = j => h ((hp.symm.trans hh).symm))]
    · simp only [alistInsert, if_neg hp, alistLookup_cons, ih]

/-- Erasing a key removes it. -/
theorem alistLookup_erase_self {β : Type} (k : String)
    (l : List (String × β)) :
    alistLookup (alistErase k l) k = none := by
  apply alistLookup_filter_stale
  intro x _ hk
  simp [hk]

/-- Erasing a key leaves other keys untouched. -/
theorem alistLookup_erase_other {β : Type} {j k : String} (h : j ≠ k)
    (l : List (String × β)) :
    alistLookup (alistErase k l) j = alistLookup l j := by
  induction l with
  | nil => rfl
  | cons p rest ih =>
    by_cases hp : p.1 = k
    · rw [show alistErase k (p :: rest) = alistErase k rest from by
        simp [alistErase, List.filter_cons, hp]]
      rw [ih, alistLookup_cons,
        if_neg (fun hh : p.1 = j => h ((hp.symm.trans hh).symm))]
    · rw [show alistErase k (p :: rest) = p :: alistErase k rest from by
        simp [alistErase, List.filter_cons, hp]]
      rw [alistLookup_cons, alistLookup_cons, ih]



/-- The empty caches satisfy the at-most-one-state invariant. -/
theorem cacheInv_empty {α : Type} : CacheInv ({} : CacheState α) := by
  intro id hc
  exact Option.noConfusion ((Option.isSome_iff_exists.mp hc.1).choose_spec)

/-- A key found after a filter was already present before it. -/
theorem alistLookup_filter_isSome {β : Type} {p : String × β → Bool}
    {l : List (String × β)} {k : String}
    (h : (alistLookup (l.filter p) k).isSome = true) :
    (alistLookup l k).isSome = true := by
  cases ho : alistLookup l k with
  | some v => rfl
  | none =>
    rw [alistLookup_filter_none p l k ho] at h
    exact Bool.noConfusion h

/-- Purging expired entries preserves the invariant. -/
theorem cacheInv_cleanup {α : Type} (now : Int) {st : CacheState α}
    (h : CacheInv st) : CacheInv (cleanup_expired_cache now st) := by
  intro id hc
  exact h id ⟨alistLookup_filter_isSome hc.1, alistLookup_filter_isSome hc.2⟩

/-- `mark_lead_as_processed` preserves the invariant from any prior
state: it removes the in-flight marker before recording completion. -/
theorem cacheInv_markProcessed {α : Type} (id : String) (r : α) (now : Int)
    {st : CacheState α} (h : CacheInv st) :
    CacheInv (mark_lead_as_processed id r now st) := by
  intro j hc
  obtain ⟨h1, h2⟩ := hc
  unfold mark_lead_as_processed at h1 h2
  dsimp only at h1 h2
  by_cases hj : j = id
  · subst hj
    rw [alistLookup_erase_self] at h2
    exact Bool.noConfusion h2
  · rw [alistLookup_insert_other hj] at h1
    rw [alistLookup_erase_other hj] at h2
    exact h j ⟨h1, h2⟩

/-- Releasing an in-flight marker preserves the invariant. -/
theorem cacheInv_release {α : Type} (id : String) {st : CacheState α}
    (h : CacheInv st) : CacheInv (release_processing id st) := by
  intro j hc
  obtain ⟨h1, h2⟩ := hc
  unfold release_processing at h2
  dsimp only at h1 h2
  by_cases hj : j = id
  · subst hj
    rw [alistLookup_erase_self] at h2
    exact Bool.noConfusion h2
  · rw [alistLookup_erase_other hj] at h2
    exact h j ⟨h1, h2⟩

/-- A check mutates the caches exactly by purging expired entries. -/
theorem check_state_eq {α : Type} (id : String) (now : Int)
    (st : CacheState α) :
    (is_lead_already_processed_or_processing id now st).2 =
      cleanup_expired_cache now st := by
  unfold is_lead_already_processed_or_processing
  dsimp only
  cases hp : alistLookup (cleanup_expired_cache now st).processed id with
  | some v =>
    obtain ⟨ts, r⟩ := v
    rfl
  | none =>
    dsimp only
    split <;> rfl

/-- A NotSeen answer means the id is in neither purged cache. -/
theorem check_notSeen_elim {α : Type} {id : String} {now : Int}
    {st : CacheState α}
    (h : (is_lead_already_processed_or_processing id now st).1 = (false, none)) :
    alistLookup (cleanup_expired_cache now st).processed id = none ∧
    alistLookup (cleanup_expired_cache now st).processing id = none := by
  unfold is_lead_already_processed_or_processing at h
  dsimp only at h
  cases hp : alistLookup (cleanup_expired_cache now st).processed id with
  | some v =>
    rw [hp] at h
    obtain ⟨ts, r⟩ := v
    simp at h
  | none =>
    rw [hp] at h
    dsimp only at h
    cases hq : alistLookup (cleanup_expired_cache now st).processing id with
    | some v => rw [hq] at h; simp at h
    | none => exact ⟨rfl, rfl⟩

/-- Marking in-flight immediately after a NotSeen check preserves the
invariant. -/
theorem cacheInv_markProcessing {α : Type} {id : String} {now : Int}
    {st : CacheState α}
    (hNotSeen : (is_lead_already_processed_or_processing id now st).1 =
      (false, none))
    (h : CacheInv st) :
    CacheInv (mark_lead_as_processing id now
      (is_lead_already_processed_or_processing id now st).2) := by
  rw [check_state_eq]
  obtain ⟨hp, _⟩ := check_notSeen_elim hNotSeen
  intro j hc
  obtain ⟨h1, h2⟩ := hc
  unfold mark_lead_as_processing at h1 h2
  dsimp only at h1 h2
  by_cases hj : j = id
  · subst hj
    rw [hp] at h1
    exact Bool.noConfusion h1
  · rw [alistLookup_insert_other hj] at h2
    exact cacheInv_cleanup now h j ⟨h1, h2⟩

/-- C10: in every sequential execution in which `markInFlight` is only
called right after a NotSeen check, each id is in at most one of the
two cache states at any time; and `mark_lead_as_processed` (a total
function, succeeding from any prior state) removes the in-flight
marker and overwrites any completed entry for the id. -/
theorem c10_cache_state_invariant {α : Type} :
    (∀ st : CacheState α, CacheReachable st → CacheInv st) ∧
    (∀ (st : CacheState α) (id : String) (r : α) (now : Int),
      alistLookup (mark_lead_as_processed id r now st).processing id = none ∧
      alistLookup (mark_lead_as_processed id r now st).processed id =
        some (now, r)) := by
  constructor
  · intro st h
    induction h with
    | refl => exact cacheInv_empty
    | tail _ step ih =>
      cases step with
      | query id now st =>
        rw [check_state_eq]
        exact cacheInv_cleanup now ih
      | markProcessing id now st hNot => exact cacheInv_markProcessing hNot ih
      | markProcessed id r now st => exact cacheInv_markProcessed id r now ih
      | release id st => exact cacheInv_release id ih
  · intro st id r now
    exact ⟨alistLookup_erase_self id st.processing,
      alistLookup_insert_self id (now, r) st.processed⟩

/-- Witness for `c10_cache_state_invariant`: a concrete reachable
state (empty caches, then a NotSeen check followed by marking in
flight) satisfies the invariant, and a concrete completion records
the outcome. -/
theorem c10_cache_state_invariant_witness :
    CacheInv (mark_lead_as_processing "GxZYdqj" 0
      (is_lead_already_processed_or_processing "GxZYdqj" 0
        ({} : CacheState String)).2) ∧
    alistLookup (mark_lead_as_processed "GxZYdqj" "done" 5
      ({} : CacheState String)).processed "GxZYdqj" = some (5, "done") :=
  ⟨c10_cache_state_invariant.1 _
    (Relation.ReflTransGen.single
      (CacheStep.markProcessing "GxZYdqj" 0 {} rfl)),
   (c10_cache_state_invariant.2 {} "GxZYdqj" "done" 5).2⟩


/-! ## Claim C8 -/

/-- A non-brace character differs from `'{'`. -/
theorem isNB_ne_lb {c : Char} (h : isNB c = true) : (c == '{') = false := by
  simp only [isNB, Bool.not_eq_true', Bool.or_eq_false_iff] at h
  exact h.1

/-- A non-brace character differs from `'}'`. -/
theorem isNB_ne_rb {c : Char} (h : isNB c = true) : (c == '}') = false := by
  simp only [isNB, Bool.not_eq_true', Bool.or_eq_false_iff] at h
  exact h.2

/-- The scanner steps over a non-brace character. -/
theorem closeLen_nb {deep : Bool} {c : Char} (hc : isNB c = true)
    (l : List Char) :
    closeLen deep (c :: l) = (closeLen deep l).map (· + 1) := by
  simp only [closeLen, isNB_ne_rb hc, isNB_ne_lb hc, Bool.false_eq_true,
    if_false]

/-- Completeness at depth 2: inside a nested block the scanner
consumes the non-brace run, its close, and then the outer close. -/
theorem closeLen_true_complete {u : List Char} (hu : NBl u) (y : List Char) :
    closeLen true (u ++ '}' :: y) =
      (closeLen false y).map (· + (u.length + 1)) := by
  induction u with
  | nil =>
    rw [List.nil_append,
      show closeLen true ('}' :: y) = (closeLen false y).map (· + 1) from rfl]
    rfl
  | cons a u ih =>
    have ha : isNB a = true := hu a (List.mem_cons_self a u)
    have ih2 := ih (fun c hc => hu c (List.mem_cons_of_mem a hc))
    rw [List.cons_append, closeLen_nb ha, ih2]
    cases closeLen false y with
    | none => rfl
    | some n =>
      simp only [Option.map_some', List.length_cons, Option.some.injEq]
      omega

/-- Completeness: on `w ++ '\x7d' :: t` with `w` in the inner
language, the scanner closes exactly after `w`. -/
theorem closeLen_false_complete {w : List Char} (hw : Ok1 w) (t : List Char) :
    closeLen false (w ++ '}' :: t) = some (w.length + 1) := by
  induction hw generalizing t with
  | nil => rfl
  | @chr c w' hc hw' ih =>
    rw [List.cons_append, closeLen_nb hc, ih t]
    simp only [Option.map_some', List.length_cons, Option.some.injEq]
  | @blk u w' hu hw' ih =>
    have h1 : ('{' :: u ++ '}' :: w') ++ '}' :: t =
        '{' :: (u ++ '}' :: (w' ++ '}' :: t)) := by simp
    rw [h1,
      show closeLen false ('{' :: (u ++ '}' :: (w' ++ '}' :: t))) =
        (closeLen true (u ++ '}' :: (w' ++ '}' :: t))).map (· + 1) from rfl,
      closeLen_true_complete hu, ih t]
    simp only [Option.map_some', List.length_append, List.length_cons,
      Option.some.injEq]
    omega



/-- A character that is neither brace is non-brace. -/
theorem isNB_of_ne {c : Char} (h1 : ¬(c = '}')) (h2 : ¬(c = '{')) :
    isNB c = true := by
  simp [isNB, h1, h2]

/-- Soundness: a successful scan decomposes the input into an
inner-language prefix, its close, and a remainder, at both depths. -/
theorem closeLen_sound (l : List Char) :
    (∀ n, closeLen false l = some n →
      ∃ w t, Ok1 w ∧ l = w ++ '}' :: t ∧ n = w.length + 1) ∧
    (∀ n, closeLen true l = some n →
      ∃ u w t, NBl u ∧ Ok1 w ∧ l = u ++ '}' :: w ++ '}' :: t ∧
        n = u.length + w.length + 2) := by
  induction l with
  | nil => exact ⟨fun n h => Option.noConfusion h, fun n h => Option.noConfusion h⟩
  | cons c rest ih =>
    by_cases hcr : c = '}'
    · subst hcr
      constructor
      · intro n h
        rw [show closeLen false ('}' :: rest) = some 1 from rfl] at h
        injection h with h
        exact ⟨[], rest, Ok1.nil, rfl, h.symm⟩
      · intro n h
        rw [show closeLen true ('}' :: rest) =
            (closeLen false rest).map (· + 1) from rfl] at h
        rw [Option.map_eq_some'] at h
        obtain ⟨n0, hn0, hn⟩ := h
        obtain ⟨w, t, hw, hrest, hlen⟩ := ih.1 n0 hn0
        refine ⟨[], w, t, ?_, hw, ?_, ?_⟩
        · intro x hx
          exact absurd hx (List.not_mem_nil x)
        · rw [hrest]
          simp
        · simp only [List.length_nil]
          omega
    · by_cases hcl : c = '{'
      · subst hcl
        constructor
        · intro n h
          rw [show closeLen false ('{' :: rest) =
              (closeLen true rest).map (· + 1) from rfl] at h
          rw [Option.map_eq_some'] at h
          obtain ⟨n0, hn0, hn⟩ := h
          obtain ⟨u, w, t, hu, hw, hrest, hlen⟩ := ih.2 n0 hn0
          refine ⟨'{' :: u ++ '}' :: w, t, Ok1.blk hu hw, ?_, ?_⟩
          · rw [hrest]
            simp
          · simp only [List.length_cons, List.length_append]
            omega
        · intro n h
          rw [show closeLen true ('{' :: rest) = none from rfl] at h
          exact Option.noConfusion h
      · have hnb : isNB c = true := isNB_of_ne hcr hcl
        constructor
        · intro n h
          rw [closeLen_nb hnb, Option.map_eq_some'] at h
          obtain ⟨n0, hn0, hn⟩ := h
          obtain ⟨w, t, hw, hrest, hlen⟩ := ih.1 n0 hn0
          refine ⟨c :: w, t, Ok1.chr hnb hw, ?_, ?_⟩
          · rw [hrest]; rfl
          · simp only [List.length_cons]
            omega
        · intro n h
          rw [closeLen_nb hnb, Option.map_eq_some'] at h
          obtain ⟨n0, hn0, hn⟩ := h
          obtain ⟨u, w, t, hu, hw, hrest, hlen⟩ := ih.2 n0 hn0
          refine ⟨c :: u, w, t, ?_, hw, ?_, ?_⟩
          · intro x hx
            rcases List.mem_cons.mp hx with hx | hx
            · rw [hx]; exact hnb
            · exact hu x hx
          · rw [hrest]; rfl
          · simp only [List.length_cons]
            omega



/-- An infix of a cons is a prefix of it or an infix of the tail. -/
theorem infix_cons_decomp {s : List Char} {c : Char} {Y : List Char}
    (h : s <:+: (c :: Y)) : s <+: (c :: Y) ∨ s <:+: Y := by
  obtain ⟨p, q, hpq⟩ := h
  cases p with
  | nil =>
    left
    exact ⟨q, by simpa using hpq⟩
  | cons a p' =>
    right
    rw [List.cons_append, List.cons_append] at hpq
    injection hpq with h1 h2
    exact ⟨p', q, h2⟩

/-- Inner-language inversion at a non-brace head. -/
theorem Ok1_cons_nb {c : Char} {w : List Char} (hc : isNB c = true)
    (h : Ok1 (c :: w)) : Ok1 w := by
  cases h with
  | chr _ hw => exact hw
  | blk hu hw => simp [isNB] at hc

/-- Inside `u ++ '\x7d' :: Y` with `u` non-brace, the only
inner-language string closed by a brace and starting at the front is
`u` itself. -/
theorem prefix_block_unique {u : List Char} (hu : NBl u) :
    ∀ {v Y : List Char}, Ok1 v → (v ++ ['}']) <+: (u ++ '}' :: Y) → v = u := by
  induction u with
  | nil =>
    intro v Y hv hpre
    cases v with
    | nil => rfl
    | cons a v' =>
      obtain ⟨t2, ht⟩ := hpre
      rw [List.nil_append, List.cons_append, List.cons_append] at ht
      injection ht with h1 h2
      subst h1
      exfalso
      cases hv with
      | chr hc _ => simp [isNB] at hc
  | cons b u' ih =>
    intro v Y hv hpre
    have hb : isNB b = true := hu b (List.mem_cons_self b u')
    cases v with
    | nil =>
      obtain ⟨t2, ht⟩ := hpre
      rw [List.nil_append, List.cons_append] at ht
      injection ht with h1 h2
      exfalso
      rw [← h1] at hb
      simp [isNB] at hb
    | cons a v' =>
      obtain ⟨t2, ht⟩ := hpre
      rw [List.cons_append, List.cons_append, List.cons_append] at ht
      injection ht with hab ht'
      have ha : isNB a = true := by rw [hab]; exact hb
      have hv' : Ok1 v' := Ok1_cons_nb ha hv
      have hrec : (v' ++ ['}']) <+: (u' ++ '}' :: Y) := ⟨t2, ht'⟩
      rw [hab, ih (fun x hx => hu x (List.mem_cons_of_mem b hx)) hv' hrec]

/-- A candidate inside `u ++ '\x7d' :: y` with `u` non-brace lies
entirely inside `y`. -/
theorem infix_peel {u : List Char} (hu : NBl u) :
    ∀ {s y : List Char}, InL s → s <:+: (u ++ '}' :: y) → s <:+: y := by
  induction u with
  | nil =>
    intro s y hs hinf
    rw [List.nil_append] at hinf
    rcases infix_cons_decomp hinf with hpre | h
    · obtain ⟨v, hv, rfl⟩ := hs
      obtain ⟨t2, ht⟩ := hpre
      rw [List.cons_append, List.cons_append] at ht
      injection ht with h1 h2
      exact absurd h1 (by decide)
    · exact h
  | cons b u' ih =>
    intro s y hs hinf
    have hb : isNB b = true := hu b (List.mem_cons_self b u')
    rw [List.cons_append] at hinf
    rcases infix_cons_decomp hinf with hpre | h
    · obtain ⟨v, hv, rfl⟩ := hs
      obtain ⟨t2, ht⟩ := hpre
      rw [List.cons_append, List.cons_append] at ht
      injection ht with h1 h2
      rw [← h1] at hb
      simp [isNB] at hb
    · exact ih (fun x hx => hu x (List.mem_cons_of_mem b hx)) hs h

/-- Key containment lemma: a candidate occurring inside a matched
block `w ++ '\x7d' :: r` is no longer than the block or lies in the
remainder `r` — candidates never straddle a match boundary. -/
theorem candidate_in_block {w : List Char} (hw : Ok1 w) :
    ∀ {s r : List Char}, InL s → s <:+: (w ++ '}' :: r) →
      s.length ≤ w.length + 2 ∨ s <:+: r := by
  induction hw with
  | nil =>
    intro s r hs hinf
    rw [List.nil_append] at hinf
    rcases infix_cons_decomp hinf with hpre | h
    · obtain ⟨v, hv, rfl⟩ := hs
      obtain ⟨t2, ht⟩ := hpre
      rw [List.cons_append, List.cons_append] at ht
      injection ht with h1 h2
      exact absurd h1 (by decide)
    · exact Or.inr h
  | @chr c w' hc hw' ih =>
    intro s r hs hinf
    rw [List.cons_append] at hinf
    rcases infix_cons_decomp hinf with hpre | h
    · obtain ⟨v, hv, rfl⟩ := hs
      obtain ⟨t2, ht⟩ := hpre
      rw [List.cons_append, List.cons_append] at ht
      injection ht with h1 h2
      rw [← h1] at hc
      simp [isNB] at hc
    · rcases ih hs h with hle | hinr
      · left
        simp only [List.length_cons]
        omega
      · exact Or.inr hinr
  | @blk u w' hu hw' ih =>
    intro s r hs hinf
    have heq : ('{' :: u ++ '}' :: w') ++ '}' :: r =
        '{' :: (u ++ '}' :: (w' ++ '}' :: r)) := by simp
    rw [heq] at hinf
    rcases infix_cons_decomp hinf with hpre | h
    · obtain ⟨v, hv, rfl⟩ := hs
      obtain ⟨t2, ht⟩ := hpre
      rw [List.cons_append, List.cons_append] at ht
      injection ht with h1 ht'
      have hvu : v = u := prefix_block_unique hu hv ⟨t2, ht'⟩
      left
      subst hvu
      simp only [List.length_cons, List.length_append, List.length_nil]
      omega
    · have h2 : s <:+: (w' ++ '}' :: r) := infix_peel hu hs h
      rcases ih hs h2 with hle | hinr
      · left
        simp only [List.length_cons, List.length_append] at hle ⊢
        omega
      · exact Or.inr hinr



/-- Scanning step over a non-`'{'` character. -/
theorem findallLF_succ_nb {c : Char} {rest : List Char} {N : Nat}
    (hc : (c == '{') = false) :
    findallLF (N + 1) (c :: rest) = findallLF N rest := by
  simp [findallLF, hc]

/-- Scanning step at a matching `'{'`: record the match and resume
after it. -/
theorem findallLF_succ_some {rest : List Char} {N n : Nat}
    (h : closeLen false rest = some n) :
    findallLF (N + 1) ('{' :: rest) =
      ('{' :: rest.take n) :: findallLF N (rest.drop n) := by
  simp [findallLF, h]

/-- Scanning step at a non-matching `'{'`. -/
theorem findallLF_succ_none {rest : List Char} {N : Nat}
    (h : closeLen false rest = none) :
    findallLF (N + 1) ('{' :: rest) = findallLF N rest := by
  simp [findallLF, h]

/-- Candidates are non-empty. -/
theorem InL_length_pos {s : List Char} (hs : InL s) : 1 ≤ s.length := by
  obtain ⟨v, _, rfl⟩ := hs
  simp

/-- The scanner's matches are exactly long enough: every candidate
in the text is bounded by some recorded match, and every recorded
match is itself a candidate. -/
theorem findallLF_spec :
    ∀ (N : Nat) (text : List Char), text.length ≤ N →
    (∀ s, InL s → s <:+: text →
      ∃ m ∈ findallLF N text, s.length ≤ m.length) ∧
    (∀ m ∈ findallLF N text, InL m ∧ m <:+: text) := by
  intro N
  induction N with
  | zero =>
    intro text hlen
    have htext : text = [] := List.eq_nil_of_length_eq_zero (Nat.le_zero.mp hlen)
    subst htext
    constructor
    · intro s hs hinf
      exact absurd (Nat.le_trans (InL_length_pos hs) hinf.length_le) (by simp)
    · intro m hm
      exact absurd hm (List.not_mem_nil m)
  | succ N ih =>
    intro text hlen
    cases text with
    | nil =>
      constructor
      · intro s hs hinf
        exact absurd (Nat.le_trans (InL_length_pos hs) hinf.length_le) (by simp)
      · intro m hm
        exact absurd hm (List.not_mem_nil m)
    | cons c rest =>
      have hrest_len : rest.length ≤ N := by
        simp only [List.length_cons] at hlen
        omega
      by_cases hc : c = '{'
      · subst hc
        cases hcl : closeLen false rest with
        | none =>
          have hrw := @findallLF_succ_none rest N hcl
          have ihr := ih rest hrest_len
          constructor
          · intro s hs hinf
            rcases infix_cons_decomp hinf with hpre | hif
            · exfalso
              obtain ⟨v, hv, rfl⟩ := hs
              obtain ⟨t2, ht2⟩ := hpre
              rw [List.cons_append, List.cons_append] at ht2
              injection ht2 with h1 h2
              have hr2 : rest = v ++ '}' :: t2 := by
                rw [← h2]
                simp
              rw [hr2, closeLen_false_complete hv t2] at hcl
              exact Option.noConfusion hcl
            · obtain ⟨m, hm, hlen'⟩ := ihr.1 s hs hif
              exact ⟨m, by rw [hrw]; exact hm, hlen'⟩
          · intro m hm
            rw [hrw] at hm
            obtain ⟨h1, h2⟩ := ihr.2 m hm
            exact ⟨h1, h2.trans (List.infix_cons (List.infix_refl rest))⟩
        | some n =>
          obtain ⟨w, t, hw, hrest, hn⟩ := (closeLen_sound rest).1 n hcl
          have htake : rest.take n = w ++ ['}'] := by
            rw [hrest, hn, show w ++ '}' :: t = (w ++ ['}']) ++ t by simp,
              show w.length + 1 = (w ++ ['}']).length by simp]
            exact List.take_left ..
          have hdrop : rest.drop n = t := by
            rw [hrest, hn, show w ++ '}' :: t = (w ++ ['}']) ++ t by simp,
              show w.length + 1 = (w ++ ['}']).length by simp]
            exact List.drop_left ..
          have hrw := @findallLF_succ_some rest N n hcl
          have hm0InL : InL ('{' :: rest.take n) := by
            refine ⟨w, hw, ?_⟩
            rw [htake]
            simp
          have hm0len : ('{' :: rest.take n).length = w.length + 2 := by
            rw [htake]
            simp
          have ht_len : t.length ≤ N := by
            rw [hrest] at hrest_len
            simp only [List.length_append, List.length_cons] at hrest_len
            omega
          have iht := ih t ht_len
          constructor
          · intro s hs hinf
            rcases infix_cons_decomp hinf with hpre | hif
            · obtain ⟨v, hv, rfl⟩ := hs
              obtain ⟨t2, ht2⟩ := hpre
              rw [List.cons_append, List.cons_append] at ht2
              injection ht2 with h1 h2
              have hr2 : rest = v ++ '}' :: t2 := by
                rw [← h2]
                simp
              have hcl2 := closeLen_false_complete hv t2
              rw [← hr2] at hcl2
              rw [hcl] at hcl2
              injection hcl2 with hn2
              refine ⟨'{' :: rest.take n, by rw [hrw]; exact List.mem_cons_self .., ?_⟩
              have hvl : ('{' :: v ++ ['}']).length = v.length + 2 := by simp
              rw [hvl, hm0len]
              omega
            · rw [hrest] at hif
              rcases candidate_in_block hw hs hif with hle | hit
              · refine ⟨'{' :: rest.take n,
                  by rw [hrw]; exact List.mem_cons_self .., ?_⟩
                rw [hm0len]
                exact hle
              · obtain ⟨m, hm, hl⟩ := iht.1 s hs hit
                refine ⟨m, ?_, hl⟩
                rw [hrw, hdrop]
                exact List.mem_cons_of_mem _ hm
          · intro m hm
            rw [hrw, hdrop] at hm
            rcases List.mem_cons.mp hm with rfl | hm'
            · refine ⟨hm0InL, ?_⟩
              refine ⟨[], rest.drop n, ?_⟩
              simp [List.take_append_drop]
            · obtain ⟨h1, h2⟩ := iht.2 m hm'
              have hsfx : t <:+: ('{' :: rest) := by
                rw [hrest]
                exact ⟨'{' :: w ++ ['}'], [], by simp⟩
              exact ⟨h1, h2.trans hsfx⟩
      · have hcb : (c == '{') = false := by simp [hc]
        have hrw := @findallLF_succ_nb c rest N hcb
        have ihr := ih rest hrest_len
        constructor
        · intro s hs hinf
          rcases infix_cons_decomp hinf with hpre | hif
          · exfalso
            obtain ⟨v, hv, rfl⟩ := hs
            obtain ⟨t2, ht2⟩ := hpre
            rw [List.cons_append, List.cons_append] at ht2
            injection ht2 with h1 h2
            exact hc h1.symm
          · obtain ⟨m, hm, hlen'⟩ := ihr.1 s hs hif
            exact ⟨m, by rw [hrw]; exact hm, hlen'⟩
        · intro m hm
          rw [hrw] at hm
          obtain ⟨h1, h2⟩ := ihr.2 m hm
          exact ⟨h1, h2.trans (List.infix_cons (List.infix_refl rest))⟩



/-- The fold underlying Python `max(·, key=len)` picks an element of
maximal length (first of several maxima). -/
theorem foldl_pick_spec (xs : List (List Char)) :
    ∀ acc : List Char,
      (xs.foldl (fun a y => if a.length < y.length then y else a) acc
        ∈ acc :: xs) ∧
      acc.length ≤
        (xs.foldl (fun a y => if a.length < y.length then y else a) acc).length ∧
      (∀ y ∈ xs, y.length ≤
        (xs.foldl (fun a y => if a.length < y.length then y else a) acc).length) := by
  induction xs with
  | nil =>
    intro acc
    refine ⟨List.mem_cons_self .., Nat.le_refl _, ?_⟩
    intro y hy
    exact absurd hy (List.not_mem_nil y)
  | cons x xs ih =>
    intro acc
    simp only [List.foldl_cons]
    obtain ⟨hmem, hacc, hall⟩ := ih (if acc.length < x.length then x else acc)
    have hax : acc.length ≤ (if acc.length < x.length then x else acc).length := by
      split
      · omega
      · exact Nat.le_refl _
    have hxx : x.length ≤ (if acc.length < x.length then x else acc).length := by
      split
      · exact Nat.le_refl _
      · omega
    refine ⟨?_, Nat.le_trans hax hacc, ?_⟩
    · rcases List.mem_cons.mp hmem with heq | hmem'
      · rw [heq]
        split
        · exact List.mem_cons_of_mem _ (List.mem_cons_self ..)
        · exact List.mem_cons_self ..
      · exact List.mem_cons_of_mem _ (List.mem_cons_of_mem _ hmem')
    · intro y hy
      rcases List.mem_cons.mp hy with rfl | hy'
      · exact Nat.le_trans hxx hacc
      · exact hall y hy'

/-- `pyMaxByLen` returns a member of maximal length. -/
theorem pyMaxByLen_some {l : List (List Char)} {x : List Char}
    (h : pyMaxByLen l = some x) :
    x ∈ l ∧ ∀ y ∈ l, y.length ≤ x.length := by
  cases l with
  | nil => exact Option.noConfusion h
  | cons a xs =>
    simp only [pyMaxByLen, Option.some.injEq] at h
    obtain ⟨hmem, hacc, hall⟩ := foldl_pick_spec xs a
    subst h
    exact ⟨hmem, by
      intro y hy
      rcases List.mem_cons.mp hy with rfl | hy'
      · exact hacc
      · exact hall y hy'⟩

/-- `pyMaxByLen` returns `none` only on the empty list. -/
theorem pyMaxByLen_none {l : List (List Char)}
    (h : pyMaxByLen l = none) : l = [] := by
  cases l with
  | nil => rfl
  | cons a xs => exact Option.noConfusion h

/-- C8: `extract_json_from_text` returns a balanced one-nesting
brace-delimited substring of the text of maximal length among all such
candidates, and returns nothing exactly when the text contains no
candidate. -/
theorem c8_extraction_longest (text : List Char) :
    (∀ s, extract_json_from_text text = some s →
      Candidate text s ∧ ∀ t, Candidate text t → t.length ≤ s.length) ∧
    (extract_json_from_text text = none → ∀ t, ¬ Candidate text t) := by
  have hspec := findallLF_spec text.length text (Nat.le_refl _)
  constructor
  · intro s hs
    unfold extract_json_from_text findallL at hs
    obtain ⟨hmem, hmax⟩ := pyMaxByLen_some hs
    obtain ⟨hsInL, hsInf⟩ := hspec.2 s hmem
    refine ⟨⟨hsInL, hsInf⟩, ?_⟩
    intro t ht
    obtain ⟨m, hm, hlen⟩ := hspec.1 t ht.1 ht.2
    exact Nat.le_trans hlen (hmax m hm)
  · intro hnone t ht
    unfold extract_json_from_text findallL at hnone
    have hempty := pyMaxByLen_none hnone
    obtain ⟨m, hm, _⟩ := hspec.1 t ht.1 ht.2
    rw [hempty] at hm
    exact absurd hm (List.not_mem_nil m)

/-- Witness for `c8_extraction_longest` at a text with two candidates
(`x{a}y{b{c}d}z`): the longer, one-level-nested one is selected and
bounds every candidate's length. -/
theorem c8_extraction_longest_witness :
    Candidate textTwoCandidates longCandidate ∧
    ∀ t, Candidate textTwoCandidates t → t.length ≤ longCandidate.length :=
  (c8_extraction_longest textTwoCandidates).1 longCandidate rfl


end Juliette
